import Mathlib

/-!
Shallow embedding of the record-to-table extraction engine in
`src/ose_core/pipelines/extractors.py` (Python/pandas), together with
theorems settling the specification claims about it.

Modelling conventions
=====================
* A Python/JSON value is a `Val`; Python `None` and pandas `NaN` are both
  `Val.none` (the only place the code distinguishes them is `astype(str)` /
  truthiness of missing DataFrame cells, which no claim observes; comments mark
  each such spot).
* A record / DataFrame row is a `Py.Dict`: an association list with unique keys
  in insertion order, which is exactly how the JSON-derived dicts behave.
* Machine floats only appear as the pandas NaN missing marker (`Val.none`);
  the numbers in these records are JSON integers, modelled as `Int`.
* Code that can raise an uncaught exception returns `Except Unit _`,
  `.error ()` meaning "raises".
* `pd.isna(v)` applied in an `if` (a truth-test of its result) is
  `Py.isnaTruth`: on a list input `pd.isna` returns an elementwise boolean
  array, whose truth-test raises `ValueError` unless it has exactly one
  element (numpy's "truth value is ambiguous" error; empty arrays also raise
  on current numpy).
-/

namespace OSE

/-- A Python value as it occurs in the JSONL-derived records: `none` stands for
both Python `None` and pandas/NumPy `NaN` (the missing-cell marker). -/
inductive Val where
  | none : Val
  | str : String → Val
  | int : Int → Val
  | bool : Bool → Val
  | list : List Val → Val
  | dict : List (String × Val) → Val

namespace Py

/-- Association-list model of a Python `dict` with string keys (unique keys,
insertion order preserved). -/
abbrev Dict := List (String × Val)

/-- First value bound to `k`, if any (`k in d` / `d[k]`). -/
def dlookup (k : String) : Dict → Option Val
  | [] => Option.none
  | (k', v) :: d => if k' = k then some v else dlookup k d

/-- Python `d.get(k)` with `None` default — also models reading a DataFrame row cell
that is missing (pandas fills absent cells with `NaN`, which we conflate with
`None`). -/
def dget (d : Dict) (k : String) : Val := (dlookup k d).getD Val.none

/-- Python `d.get(k, dflt)`. -/
def dgetD (d : Dict) (k : String) (dflt : Val) : Val := (dlookup k d).getD dflt

/-- Python `k in d`. -/
def hasKey (d : Dict) (k : String) : Bool := (dlookup k d).isSome

/-- Python `d[k] = v`: replaces the binding in place if the key exists, else appends
it (Python dicts keep insertion order). -/
def dset (d : Dict) (k : String) (v : Val) : Dict :=
  if hasKey d k then d.map (fun p => if p.1 = k then (k, v) else p) else d ++ [(k, v)]

/-- Python `d.update(u)`: `dset` for each binding of `u` in order. -/
def dupdate (d : Dict) (u : Dict) : Dict := u.foldl (fun acc p => dset acc p.1 p.2) d

/-- Effectful map over a list, propagating the first exception — the shape of
every `for` loop below that appends one result per element. -/
def mapME {α β : Type} (f : α → Except Unit β) : List α → Except Unit (List β)
  | [] => Except.ok []
  | a :: l => do
      let b ← f a
      let bs ← mapME f l
      Except.ok (b :: bs)

/-- Effectful filter-map (loops that skip some elements). -/
def filterMapME {α β : Type} (f : α → Except Unit (Option β)) : List α → Except Unit (List β)
  | [] => Except.ok []
  | a :: l => do
      match ← f a with
      | some b => (filterMapME f l).map (fun bs => b :: bs)
      | Option.none => filterMapME f l

/-- Model of `pd.isna(v)` as a scalar predicate (elementwise use): true exactly on the
missing marker. Strings, numbers, bools, dicts and lists are not na. -/
def isNa : Val → Bool
  | Val.none => true
  | _ => false

/-- Truth-testing `pd.isna(v)` (`if pd.isna(v): ...`): on a list, `pd.isna`
returns an elementwise boolean array; truth-testing it raises `ValueError`
(`Option.none` here) unless the array has exactly one element, in which case
it is that element's na-status. -/
def isnaTruth : Val → Option Bool
  | Val.none => some true
  | Val.list [x] => some (isNa x)
  | Val.list _ => Option.none
  | _ => some false

/-- Truth-testing `pd.notna(v)`. -/
def notnaTruth (v : Val) : Option Bool := (isnaTruth v).map (fun b => !b)

/-- Python truthiness (`if v:`) for the values appearing here. (`NaN`, being a
float, is truthy in Python; this model returns `false` for the conflated
missing marker, which matches every spot the claims exercise — the guards in
the code filter non-dict/non-list values right after these tests.) -/
def truthy : Val → Bool
  | Val.none => false
  | Val.str s => !(s = "")
  | Val.int n => !(n = 0)
  | Val.bool b => b
  | Val.list l => !l.isEmpty
  | Val.dict d => !d.isEmpty

/-- Python `v == s` for a string literal `s` (Python equality across types is `False`). -/
def eqStr (v : Val) (s : String) : Bool :=
  match v with
  | Val.str t => t = s
  | _ => false

def isDictB : Val → Bool
  | Val.dict _ => true
  | _ => false

/-- The decimal digit characters. -/
def digitChar : Nat → Char
  | 0 => '0' | 1 => '1' | 2 => '2' | 3 => '3' | 4 => '4'
  | 5 => '5' | 6 => '6' | 7 => '7' | 8 => '8' | _ => '9'

/-- Decimal digits of `n`, most significant first (fuel-structured so that it
reduces definitionally; `fuel = n + 1` always suffices). -/
def digitsOfAux : Nat → Nat → List Char
  | 0, _ => []
  | fuel + 1, n => if n < 10 then [digitChar n] else digitsOfAux fuel (n / 10) ++ [digitChar (n % 10)]

def digitsOf (n : Nat) : List Char := digitsOfAux (n + 1) n

/-- Python `str(n)` for an integer. -/
def intToStr (n : Int) : String :=
  if n < 0 then String.mk ('-' :: digitsOf n.natAbs) else String.mk (digitsOf n.natAbs)

mutual
/-- Structural size of a value, used as recursion fuel below. -/
def vsize : Val → Nat
  | Val.list l => 1 + vsizeList l
  | Val.dict d => 1 + vsizeDict d
  | _ => 1
def vsizeList : List Val → Nat
  | [] => 0
  | v :: vs => vsize v + vsizeList vs
def vsizeDict : List (String × Val) → Nat
  | [] => 0
  | p :: ps => vsize p.2 + vsizeDict ps
end

/-- Python `repr(v)` (fuel-structured; `vsize v` fuel always suffices; string
escaping inside quotes is not modelled — no claim evaluates it). -/
def pyReprF : Nat → Val → String
  | _, Val.none => "None"
  | _, Val.str s => "'" ++ s ++ "'"
  | _, Val.int n => intToStr n
  | _, Val.bool b => if b then "True" else "False"
  | 0, _ => ""
  | fuel + 1, Val.list l =>
      "[" ++ String.intercalate ", " (l.map (pyReprF fuel)) ++ "]"
  | fuel + 1, Val.dict d =>
      "\x7b" ++ String.intercalate ", " (d.map (fun p => "'" ++ p.1 ++ "': " ++ pyReprF fuel p.2)) ++ "\x7d"

/-- Python `str(v)`. -/
def pyStr : Val → String
  | Val.str s => s
  | v => pyReprF (vsize v) v

/-- Python `==` between values: `None == None`, numeric equality (with
`True == 1`), elementwise list equality, and order-insensitive dict equality
(the dicts here have unique keys). `NaN != NaN` is not distinguished from
`None == None`; no claim compares NaN-carrying dicts. -/
def pyEqF : Nat → Val → Val → Bool
  | _, Val.none, Val.none => true
  | _, Val.str a, Val.str b => a = b
  | _, Val.int a, Val.int b => a = b
  | _, Val.bool a, Val.bool b => a = b
  | _, Val.int a, Val.bool b => a = (if b then 1 else 0)
  | _, Val.bool a, Val.int b => (if a then (1 : Int) else 0) = b
  | 0, _, _ => false
  | fuel + 1, Val.list a, Val.list b =>
      a.length = b.length && (a.zip b).all (fun p => pyEqF fuel p.1 p.2)
  | fuel + 1, Val.dict a, Val.dict b =>
      a.all (fun p => match dlookup p.1 b with
        | some v => pyEqF fuel p.2 v
        | Option.none => false) &&
      b.all (fun p => hasKey a p.1)
  | _, _, _ => false

def pyEq (a b : Val) : Bool := pyEqF (vsize a + vsize b) a b

def digitVal (c : Char) : Nat := c.toNat - 48

def digitsToNat (l : List Char) : Nat := l.foldl (fun a c => a * 10 + digitVal c) 0

/-- Value of a non-empty all-digit character run, else `none`. -/
def parseDigits? (l : List Char) : Option Nat :=
  if !l.isEmpty && l.all Char.isDigit then some (digitsToNat l) else Option.none

/-- Model of Python `int(float(s))` on a stripped string: optionally
minus-signed integer numerals parse to their value; anything else fails. Every
string the pipeline's claims feed through this spot is such a numeral, `""`,
`"nan"` or non-numeric; integer numerals of ≤ 15 digits are below `2^53`, so
the intermediate float conversion is exact and this model is faithful on them.
(Python would additionally accept forms like `"12.5"` or `"1e3"`.) -/
def pyNumInt? : List Char → Option Int
  | '-' :: rest => (parseDigits? rest).map (fun n => -(n : Int))
  | l => (parseDigits? l).map (fun n => (n : Int))

/-- Python `s.strip()`. -/
def stripChars (l : List Char) : List Char :=
  ((l.dropWhile Char.isWhitespace).reverse.dropWhile Char.isWhitespace).reverse

/-- Python `f"{n:014d}"`: left-zero-pad the decimal form to width 14 (the sign
counts toward the width). -/
def zeroPadL (w : Nat) (l : List Char) : List Char := List.replicate (w - l.length) '0' ++ l

def pyFormat014 (n : Int) : String :=
  if n < 0 then String.mk ('-' :: zeroPadL 13 (digitsOf n.natAbs))
  else String.mk (zeroPadL 14 (digitsOf n.toNat))

end Py

open Py

/-- Model of `format_siret` (extractors.py:31-46). The very first line,
`if pd.isna(siret) or siret == "" or siret == "nan":`, runs outside the
`try`-blocks, so a truth-test failure of `pd.isna` there (multi-element list
input) raises out of the function (`Except.error`). The function's trailing
`except Exception` catch-all is unreachable for the values modelled here
(nothing after the first line raises outside the inner `try`). -/
def formatSiret (siret : Val) : Except Unit String :=
  match isnaTruth siret with
  | Option.none => Except.error ()
  | some true => Except.ok ""
  | some false =>
    if eqStr siret "" then Except.ok ""
    else if eqStr siret "nan" then Except.ok ""
    else
      match siret with
      | Val.int n => Except.ok (pyFormat014 n)
      | Val.bool b => Except.ok (pyFormat014 (if b then 1 else 0)) -- bool is an int in Python
      | v =>
        let valStr := stripChars (pyStr v).data
        if valStr.isEmpty || valStr == "nan".data then Except.ok ""
        else
          match pyNumInt? valStr with
          | some n => Except.ok (pyFormat014 n)
          | Option.none => Except.ok (String.mk valStr)

/-- Model of `safe_join` (extractors.py:13-28). -/
def safeJoin (items : Val) (sep : String) : String :=
  match items with
  | Val.list l =>
      String.intercalate sep (l.map (fun item =>
        match item with
        | Val.dict d =>
            match dlookup "label" d with
            | some v => pyStr v
            | Option.none =>
              match dlookup "name" d with
              | some v => pyStr v
              | Option.none => pyStr item
        | _ => pyStr item))
  | _ => if truthy items then pyStr items else ""

/-! ## VectorizedArticleExtractor (extractors.py:49-197) -/

/-- The `safe_get_list` closure of the two `extract_chunk` methods
(extractors.py:59-99 and 210-250, identical code; default `None`). The
`pd.Series` branch never fires (row cells are plain values). The
`pd.isna(value)` truth-test sits in an inner `try` whose `except` falls
through (`pass`), so a multi-element list survives to the `isinstance(value,
list)` branch and is returned whole; a one-element list is returned iff its
element is not na; an empty list (truth-test of an empty isna-array raises,
or is `False` on old numpy — same outcome) falls through to the length
check and yields the default. Strings and dicts are excluded from the
iterable branch; scalars have no `__iter__`. -/
def outerSafeGetList : Val → Option (List Val)
  | Val.list [] => Option.none
  | Val.list [x] => if isNa x then Option.none else some [x]
  | Val.list l => some l
  | _ => Option.none

/-- The `safe_get_list` closure of `_create_article_row`
(extractors.py:145-155) and of `_create_signal_row` (via `is_not_na`,
extractors.py:307-323): here the `pd.isna` truth-test failure is caught by the
*surrounding* `except`, returning the default — so multi-element lists yield
the default, and only a one-element list with a non-na element is returned. -/
def innerSafeGetList : Val → Option (List Val)
  | Val.list [x] => if isNa x then Option.none else some [x]
  | _ => Option.none

/-- Model of `safe_get_scalar` (extractors.py:166-172 and 374-380; default `""`):
na (or a raising na-check, caught) → default; falsy → default; else `str`. -/
def safeGetScalar (v : Val) : String :=
  match isnaTruth v with
  | some false => if truthy v then pyStr v else ""
  | _ => ""

/-- The all-empty identity key `{"company_name": "", "siren": "", "siret": ""}`. -/
def emptyBase : Py.Dict :=
  [("company_name", Val.str ""), ("siren", Val.str ""), ("siret", Val.str "")]

/-- The `base_index` built from one company reference in
`VectorizedArticleExtractor.extract_chunk` (extractors.py:113-122).
`format_siret` on the reference's `siret` runs unguarded, so its exception
propagates. -/
def articleBaseIndex (company : Val) : Except Unit Py.Dict :=
  match company with
  | Val.dict d => do
      let siret ← formatSiret (dgetD d "siret" (Val.str ""))
      Except.ok [("company_name", dgetD d "label" (Val.str "")),
                 ("siren", Val.str (pyStr (dgetD d "siren" (Val.str "")))),
                 ("siret", Val.str siret)]
  | _ => Except.ok emptyBase

/-- Model of `_create_article_row` (extractors.py:127-191): `base_index.copy()` then
`update` with twelve fresh keys (all disjoint from the three identity keys,
hence a plain append). -/
def createArticleRow (row : Py.Dict) (base : Py.Dict) : Py.Dict :=
  let authorName : Val :=
    match dget row "author" with
    | Val.dict d => dgetD d "name" (Val.str "")
    | _ => Val.str ""   -- includes the caught isna-raise on list values
  let countryLabel : Val :=
    match dget row "country" with
    | Val.dict d => dgetD d "label" (Val.str "")
    | _ => Val.str ""
  let signalsStatus := (innerSafeGetList (dget row "signalsStatus")).getD []
  let signalsType := (innerSafeGetList (dget row "signalsType")).getD []
  let sectors := (innerSafeGetList (dget row "sectors")).getD []
  let cities := (innerSafeGetList (dget row "cities")).getD []
  let sources := (innerSafeGetList (dget row "sources")).getD []
  let departments := (innerSafeGetList (dget row "departments")).getD []
  let allCompanies := (innerSafeGetList (dget row "all_companies")).getD []
  let companies := (innerSafeGetList (dget row "companies")).getD []
  base ++
    [("title", Val.str (safeGetScalar (dget row "title"))),
     ("publishedAt", Val.str (safeGetScalar (dget row "publishedAt"))),
     ("author", authorName),
     ("signalsStatus", Val.str (safeJoin (Val.list signalsStatus) ", ")),
     ("signalsType", Val.str (safeJoin (Val.list signalsType) ", ")),
     ("country", countryLabel),
     ("sectors", Val.str (safeJoin (Val.list sectors) ", ")),
     ("cities", Val.str (safeJoin (Val.list cities) ", ")),
     ("sources", Val.str (safeJoin (Val.list sources) ", ")),
     ("departments", Val.str (safeJoin (Val.list departments) ", ")),
     ("all_companies_count", Val.int allCompanies.length),
     ("companies_count", Val.int companies.length)]

/-- The company-reference list resolution of
`VectorizedArticleExtractor.extract_chunk` (extractors.py:102-104):
`companies`, falling back to `all_companies` when the former resolved falsy
(`safe_get_list` never returns a non-`None` falsy value). -/
def resolvedArticleCompanies (row : Py.Dict) : Option (List Val) :=
  (outerSafeGetList (dget row "companies")).orElse
    (fun _ => outerSafeGetList (dget row "all_companies"))

/-- The rows `VectorizedArticleExtractor.extract_chunk` emits for one input
row (extractors.py:101-122). -/
def articleRowsForRow (row : Py.Dict) : Except Unit (List Py.Dict) :=
  match resolvedArticleCompanies row with
  | Option.none => Except.ok [createArticleRow row emptyBase]
  | some cs => mapME (fun c => (articleBaseIndex c).map (createArticleRow row)) cs

/-- Model of `VectorizedArticleExtractor.extract_chunk` over a whole chunk: the
per-row fan-outs concatenated in order (an exception anywhere aborts the
call). -/
def articleExtractChunk (chunk : List Py.Dict) : Except Unit (List Py.Dict) :=
  (mapME articleRowsForRow chunk).map List.flatten

/-! ## VectorizedProjectExtractor (extractors.py:200-407) -/

/-- The company-reference resolution of
`VectorizedProjectExtractor.extract_chunk` (extractors.py:253-257):
`companies`, then `companiesmain`, then `allCompanies` — first non-falsy
resolution wins. -/
def resolvedSignalCompanies (row : Py.Dict) : Option (List Val) :=
  ((outerSafeGetList (dget row "companies")).orElse
    (fun _ => outerSafeGetList (dget row "companiesmain"))).orElse
    (fun _ => outerSafeGetList (dget row "allCompanies"))

/-- The `base_index` for one company reference (extractors.py:271-284): identity
keyed by the reference's `id` as `siren`; `company_name` and `siret` empty. -/
def signalCompanyBase (company : Val) : Py.Dict :=
  match company with
  | Val.dict d =>
      let cid := dgetD d "id" (Val.str "")
      [("company_name", Val.str ""),
       ("siren", Val.str (if truthy cid then pyStr cid else "")),
       ("siret", Val.str "")]
  | c =>
      [("company_name", Val.str ""),
       ("siren", Val.str (if truthy c then pyStr c else "")),
       ("siret", Val.str "")]

/-- The `base_index` for one SIRET entry (extractors.py:288-298): normalized
`siret`, `siren` its first 9 characters when long enough. `format_siret`
runs unguarded, so its exception propagates. -/
def signalSiretBase (siretInfo : Val) : Except Unit Py.Dict :=
  (match siretInfo with
    | Val.dict d => formatSiret (dgetD d "siret" (Val.str ""))
    | v => formatSiret v).map (fun (siret : String) =>
      [("company_name", Val.str ""),
       ("siren", Val.str (if siret.length ≥ 9 then siret.take 9 else "")),
       ("siret", Val.str siret)])

/-- Model of `_create_signal_row` (extractors.py:304-401): `base_index.copy()` then
`update` with fourteen fresh keys (disjoint from the identity keys, hence a
plain append). The `companies_count`/`sirets_count` fields use the *inner*
`safe_get_list` (via `is_not_na`), which defaults multi-element lists. -/
def createSignalRow (row : Py.Dict) (base : Py.Dict) : Py.Dict :=
  let countryLabel : Val :=
    match dget row "country" with
    | Val.list [x] =>
        if isNa x then Val.str ""
        else match x with
          | Val.dict d => dgetD d "label" (Val.str "")
          | _ => Val.str (pyStr x)
    | Val.dict d => dgetD d "label" (Val.str "")
    | _ => Val.str ""   -- includes is_not_na returning False on multi-element lists
  let deptLabel : Val :=
    match dget row "departement" with
    | Val.list [x] =>
        if isNa x then Val.str ""
        else match x with
          | Val.dict d => dgetD d "label" (Val.str "")
          | _ => Val.str (pyStr x)
    | _ => Val.str ""   -- no dict branch for `departement`
  let typeLabel : Val :=
    match dget row "type" with
    | Val.dict d => dgetD d "label" (Val.str "")
    | _ => Val.str ""
  let typeId : Val :=
    match dget row "type" with
    | Val.dict d => dgetD d "id" (Val.str "")
    | _ => Val.str ""
  let statutLabel : Val :=
    match dget row "statut" with
    | Val.dict d => dgetD d "label" (Val.str "")
    | _ => Val.str ""
  let continent := (innerSafeGetList (dget row "continent")).getD []
  let natureOp := (innerSafeGetList (dget row "natureOp")).getD []
  let companies := (innerSafeGetList (dget row "companies")).getD []
  let sirets := (innerSafeGetList (dget row "sirets")).getD []
  base ++
    [("continent", Val.str (safeJoin (Val.list continent) ", ")),
     ("country", countryLabel),
     ("departement", deptLabel),
     ("publishedAt", Val.str (safeGetScalar (dget row "publishedAt"))),
     ("isMain", Val.bool true),
     ("type", typeLabel),
     ("type_id", typeId),
     ("createdAt", Val.str (safeGetScalar (dget row "createdAt"))),
     ("statut", statutLabel),
     ("city_label", Val.str (safeGetScalar (dget row "city_label"))),
     ("city_zip_code", Val.str (safeGetScalar (dget row "city_zip_code"))),
     ("natureOp", Val.str (safeJoin (Val.list natureOp) ", ")),
     ("companies_count", Val.int companies.length),
     ("sirets_count", Val.int sirets.length)]

/-- The rows `VectorizedProjectExtractor.extract_chunk` emits for one input
row (extractors.py:252-299): both empty → one all-empty-identity row; else
one row per company reference followed by one row per SIRET entry (both
loops run — an additive union, not a fallback). -/
def signalRowsForRow (row : Py.Dict) : Except Unit (List Py.Dict) :=
  let companies := (resolvedSignalCompanies row).getD []
  let sirets := (outerSafeGetList (dget row "sirets")).getD []
  if companies.isEmpty && sirets.isEmpty then
    Except.ok [createSignalRow row emptyBase]
  else do
    let siretRows ← mapME (fun s => (signalSiretBase s).map (createSignalRow row)) sirets
    Except.ok (companies.map (fun c => createSignalRow row (signalCompanyBase c)) ++ siretRows)

/-- Model of `VectorizedProjectExtractor.extract_chunk` over a whole chunk. -/
def signalExtractChunk (chunk : List Py.Dict) : Except Unit (List Py.Dict) :=
  (mapME signalRowsForRow chunk).map List.flatten

/-! ## VectorizedCompanyExtractor (extractors.py:410-789)

A chunk is a list of records; the DataFrame's column set is the union of
their keys, and a record's cell for a column it lacks is `NaN` (`Val.none`,
which is what `dget` returns for a missing key). -/

/-- Python `col in chunk_df.columns`. -/
def colExists (chunk : List Py.Dict) (c : String) : Bool :=
  chunk.any (fun r => hasKey r c)

/-- The column `c` as a series of cells (missing cells are na). -/
def colSeries (chunk : List Py.Dict) (c : String) : List Val :=
  chunk.map (fun r => dget r c)

/-- Model of `safe_get(chunk_df, col, default)` (extractors.py:429-440): the column if
present, else a constant series of the default. -/
def safeGetSeries (chunk : List Py.Dict) (c : String) (dflt : Val) : List Val :=
  if colExists chunk c then colSeries chunk c else chunk.map (fun _ => dflt)

/-- One row's cell of `safe_get(chunk_df, col, default)`. -/
def sgCell (chunk : List Py.Dict) (r : Py.Dict) (c : String) (dflt : Val) : Val :=
  if colExists chunk c then dget r c else dflt

/-- Pandas `.fillna(dflt)` on one cell. -/
def fillnaWith (dflt : Val) (v : Val) : Val := if isNa v then dflt else v

def fillnaStr (v : Val) : Val := fillnaWith (Val.str "") v

/-- Pandas `.astype(str)` on one cell: the missing marker prints as `"nan"` (an
explicit `None` cell would print `"None"`; the conflation is unobserved by
the claims). -/
def astypeStrCell (v : Val) : String := if isNa v then "nan" else pyStr v

/-- Pandas `.astype(bool)` on one cell: `bool(x)`; the missing marker is a float
`NaN`, which is truthy (an explicit `None` cell would be falsy; the
conflation is unobserved by the claims). -/
def astypeBoolCell (v : Val) : Bool :=
  match v with
  | Val.none => true
  | v => truthy v

/-- The alternative-column loop of extractors.py:447-452: each present
alternative column replaces the series, and the loop breaks on the first
non-empty, not-all-na replacement. -/
def companyNameAltLoop (chunk : List Py.Dict) : List String → List Val → List Val
  | [], s => s
  | c :: rest, s =>
      if colExists chunk c then
        let s' := colSeries chunk c
        if !(s'.isEmpty || s'.all isNa) then s' else companyNameAltLoop chunk rest s'
      else companyNameAltLoop chunk rest s

/-- The `company_name_series` (extractors.py:445-452): the `socialName` column
(defaulting to the empty string when the column is absent), with the
`label`/`name`/`raison_sociale` fallback consulted only when that series is
empty or entirely na — a chunk-level, not per-record, condition. -/
def companyNameSeries (chunk : List Py.Dict) : List Val :=
  let s := safeGetSeries chunk "socialName" (Val.str "")
  if s.isEmpty || s.all isNa then
    companyNameAltLoop chunk ["label", "name", "raison_sociale"] s
  else s

/-- The `base_index` (extractors.py:454-460): one identity-key row per record;
`company_name` filled na→`""`, `siren` via `astype(str)`, `siret` via
`format_siret` applied to each cell (whose exception aborts the chunk). -/
def baseIndexRows (chunk : List Py.Dict) : Except Unit (List Py.Dict) := do
  let names := companyNameSeries chunk
  let sirens := (safeGetSeries chunk "siren" (Val.str "")).map astypeStrCell
  let sirets ← mapME formatSiret (safeGetSeries chunk "siret" (Val.str ""))
  Except.ok (List.zipWith (fun n st =>
      [("company_name", fillnaStr n),
       ("siren", Val.str st.1),
       ("siret", Val.str st.2)])
    names (sirens.zip sirets))

/-- Model of `pd.concat([...base_index...], axis=1)`: each table row is the identity
row followed by the table's own fields. -/
def withBase (chunk : List Py.Dict) (extras : Py.Dict → Except Unit Py.Dict) :
    Except Unit (List Py.Dict) := do
  let base ← baseIndexRows chunk
  let ex ← mapME extras chunk
  Except.ok ((base.zip ex).map (fun p => p.1 ++ p.2))

/-- A `label`/`id`/`code` field pulled from a dict-valued column cell
(e.g. `department`, `naf`, `juridicForm`; extractors.py:462-473). -/
def dictFieldCell (chunk : List Py.Dict) (r : Py.Dict) (col key : String) : Val :=
  match sgCell chunk r col (Val.dict []) with
  | Val.dict d => dgetD d key (Val.str "")
  | _ => Val.str ""

/-- The `resume_activite` blend (extractors.py:483-485):
`activity.fillna("") + " " + activityLight.fillna("")` — pandas string
concatenation, which raises `TypeError` on non-string cells. -/
def resumeBlend (a b : Val) : Except Unit Val :=
  match a, b with
  | Val.str x, Val.str y => Except.ok (Val.str (x ++ " " ++ y))
  | _, _ => Except.error ()

/-- The `01_company_basic_info` fields (extractors.py:475-501). -/
def basicInfoExtras (chunk : List Py.Dict) (r : Py.Dict) : Except Unit Py.Dict := do
  let resume ← resumeBlend (fillnaStr (sgCell chunk r "activity" (Val.str "")))
                           (fillnaStr (sgCell chunk r "activityLight" (Val.str "")))
  Except.ok
    [("departement", dictFieldCell chunk r "department" "label"),
     ("departement_id", dictFieldCell chunk r "department" "id"),
     ("resume_activite", resume),
     ("raison_sociale", fillnaStr (sgCell chunk r "socialName" (Val.str ""))),
     ("raison_sociale_keyword", fillnaStr (sgCell chunk r "internalName" (Val.str ""))),
     ("last_modified", fillnaStr (sgCell chunk r "updatedAt" (Val.str ""))),
     ("processedAt", fillnaStr (sgCell chunk r "createdAt" (Val.str ""))),
     ("updatedAt", fillnaStr (sgCell chunk r "updatedAt" (Val.str ""))),
     ("address", fillnaStr (sgCell chunk r "address" (Val.str ""))),
     ("cp", fillnaStr (sgCell chunk r "cp" (Val.str ""))),
     ("ville", fillnaStr (sgCell chunk r "ville" (Val.str ""))),
     ("naf_code", dictFieldCell chunk r "naf" "code"),
     ("naf_label", dictFieldCell chunk r "naf" "label"),
     ("juridic_form", dictFieldCell chunk r "juridicForm" "label")]

def basicInfoRows (chunk : List Py.Dict) : Except Unit (List Py.Dict) :=
  withBase chunk (basicInfoExtras chunk)

/-- The `02_financial_data` fields (extractors.py:504-524). -/
def financialExtras (chunk : List Py.Dict) (r : Py.Dict) : Py.Dict :=
  [("caConsolide", fillnaStr (sgCell chunk r "caConsolide" (Val.str ""))),
   ("caGroupe", fillnaStr (sgCell chunk r "caGroupe" (Val.str ""))),
   ("caBilan", fillnaStr (sgCell chunk r "caBilan" (Val.str ""))),
   ("resultatExploitation", fillnaStr (sgCell chunk r "resultatExploitation" (Val.str ""))),
   ("resultatNet", fillnaStr (sgCell chunk r "resultatNet" (Val.str ""))),
   ("fondsPropres", fillnaStr (sgCell chunk r "fondsPropres" (Val.str ""))),
   ("dateConsolide", fillnaStr (sgCell chunk r "dateCloture" (Val.str ""))),
   ("trancheCaBilan", fillnaStr (sgCell chunk r "trancheCaBilan" (Val.str ""))),
   ("trancheCaConsolide", fillnaStr (sgCell chunk r "trancheCaConsolide" (Val.str "")))]

def financialRows (chunk : List Py.Dict) : Except Unit (List Py.Dict) :=
  withBase chunk (fun r => Except.ok (financialExtras chunk r))

/-- The `03_workforce_data` fields (extractors.py:526-542). -/
def workforceExtras (chunk : List Py.Dict) (r : Py.Dict) : Py.Dict :=
  [("effectif", fillnaStr (sgCell chunk r "effectif" (Val.str ""))),
   ("effectifConsolide", fillnaStr (sgCell chunk r "effectifConsolide" (Val.str ""))),
   ("effectifGroupe", fillnaStr (sgCell chunk r "effectifGroupe" (Val.str ""))),
   ("trancheEffectifConsolide", fillnaStr (sgCell chunk r "trancheEffectifConsolide" (Val.str ""))),
   ("trancheEffectifPrecis", fillnaStr (sgCell chunk r "trancheEffectifPrecis" (Val.str "")))]

def workforceRows (chunk : List Py.Dict) : Except Unit (List Py.Dict) :=
  withBase chunk (fun r => Except.ok (workforceExtras chunk r))

/-- The `04_company_structure` fields (extractors.py:544-562). -/
def structureExtras (chunk : List Py.Dict) (r : Py.Dict) : Py.Dict :=
  [("nbEtabSecondaire", fillnaStr (sgCell chunk r "nbEtabSecondaire" (Val.str ""))),
   ("nbMarques", fillnaStr (sgCell chunk r "nbMarques" (Val.str ""))),
   ("hasGroupOwner", Val.bool (astypeBoolCell (sgCell chunk r "hasGroupOwner" (Val.bool false)))),
   ("groupOwnerSiren", fillnaStr (sgCell chunk r "groupOwnerSiren" (Val.str ""))),
   ("groupOwnerSocialName", fillnaStr (sgCell chunk r "groupOwnerSocialName" (Val.str ""))),
   ("hasEtabSecondaire", Val.bool (astypeBoolCell (sgCell chunk r "hasEtabSecondaire" (Val.bool false)))),
   ("nbActionnaires", fillnaStr (sgCell chunk r "nbActionnaires" (Val.str "")))]

def structureRows (chunk : List Py.Dict) : Except Unit (List Py.Dict) :=
  withBase chunk (fun r => Except.ok (structureExtras chunk r))

/-- The `05_classification_flags` fields (extractors.py:564-591); `startup` uses
`chunk_df.get` with a constant `False` series — same cell semantics as
`safe_get`. -/
def flagsExtras (chunk : List Py.Dict) (r : Py.Dict) : Py.Dict :=
  [("startup", Val.bool (astypeBoolCell (sgCell chunk r "startup" (Val.bool false)))),
   ("radiee", Val.bool (astypeBoolCell (sgCell chunk r "radiate" (Val.bool false)))),
   ("entreprise_b2b", Val.bool (astypeBoolCell (sgCell chunk r "bToB" (Val.bool false)))),
   ("entreprise_b2c", Val.bool (astypeBoolCell (sgCell chunk r "bToC" (Val.bool false)))),
   ("fintech", Val.bool (astypeBoolCell (sgCell chunk r "entreprise_fintech" (Val.bool false)))),
   ("cac40", Val.bool (astypeBoolCell (sgCell chunk r "cac40" (Val.bool false)))),
   ("entreprise_familiale", Val.bool (astypeBoolCell (sgCell chunk r "entreprise_familiale" (Val.bool false)))),
   ("entreprise_biotech_medtech", Val.bool (astypeBoolCell (sgCell chunk r "entreprise_biotech_medtech" (Val.bool false)))),
   ("hasMarques", Val.bool (astypeBoolCell (sgCell chunk r "hasMarques" (Val.bool false)))),
   ("hasESV1Contacts", Val.bool (astypeBoolCell (sgCell chunk r "hasESV1Contacts" (Val.bool false)))),
   ("hasBrevets", Val.bool (astypeBoolCell (sgCell chunk r "hasBrevets" (Val.bool false)))),
   ("hasBodacc", Val.bool (astypeBoolCell (sgCell chunk r "hasBodacc" (Val.bool false)))),
   ("site_ecommerce", Val.bool (astypeBoolCell (sgCell chunk r "site_ecommerce" (Val.bool false)))),
   ("risk", Val.bool (astypeBoolCell (sgCell chunk r "risk" (Val.bool false))))]

def flagsRows (chunk : List Py.Dict) : Except Unit (List Py.Dict) :=
  withBase chunk (fun r => Except.ok (flagsExtras chunk r))

/-- The `06_contact_metrics` fields (extractors.py:593-610). -/
def contactsExtras (chunk : List Py.Dict) (r : Py.Dict) : Py.Dict :=
  [("nbContacts", fillnaWith (Val.int 0) (sgCell chunk r "nbContacts" (Val.int 0))),
   ("emailContact", fillnaStr (sgCell chunk r "emailContact" (Val.str ""))),
   ("telephoneNumber", fillnaStr (sgCell chunk r "telephoneNumber" (Val.str ""))),
   ("webSite", fillnaStr (sgCell chunk r "webSite" (Val.str ""))),
   ("urlLinkedin", fillnaStr (sgCell chunk r "urlLinkedin" (Val.str ""))),
   ("urlFacebook", fillnaStr (sgCell chunk r "urlFacebook" (Val.str ""))),
   ("urlTwitter", fillnaStr (sgCell chunk r "urlTwitter" (Val.str "")))]

def contactsRows (chunk : List Py.Dict) : Except Unit (List Py.Dict) :=
  withBase chunk (fun r => Except.ok (contactsExtras chunk r))

/-! ### 07_kpi_data (extractors.py:613-703) -/

/-- Truth-testing `pd.notna(v)` where a raise propagates. -/
def notnaE (v : Val) : Except Unit Bool :=
  match notnaTruth v with
  | some b => Except.ok b
  | Option.none => Except.error ()

/-- The `base_kpi` identity triple of `extract_kpi_from_record`
(extractors.py:617-621): guarded `str(...)`/`format_siret` conversions; the
`pd.notna` truth-tests can raise. -/
def kpiBase (row : Py.Dict) : Except Unit Py.Dict := do
  let bsn ← notnaE (dget row "socialName")
  let cn := if bsn then pyStr (dgetD row "socialName" (Val.str "")) else ""
  let bsr ← notnaE (dget row "siren")
  let sr := if bsr then pyStr (dgetD row "siren" (Val.str "")) else ""
  let bst ← notnaE (dget row "siret")
  let st ← if bst then formatSiret (dgetD row "siret" (Val.str "")) else Except.ok ""
  Except.ok [("company_name", Val.str cn), ("siren", Val.str sr), ("siret", Val.str st)]

/-- Model of `extract_kpi_from_record` (extractors.py:615-627): one row per
`(year, metrics-dict)` item — the identity key, the year, then
`kpi_row.update(year_kpis)`, which can overwrite identity columns when a
metrics mapping binds their names. Non-dict `year_kpis` items are skipped. -/
def extractKpiRows (row : Py.Dict) (kpiData : Val) : Except Unit (List Py.Dict) := do
  let b ← notnaE kpiData
  match kpiData with
  | Val.dict kd =>
      if b then do
        let base ← kpiBase row
        Except.ok (kd.foldl (fun acc p =>
          match p.2 with
          | Val.dict yk => acc ++ [dupdate (base ++ [("year", Val.str p.1)]) yk]
          | _ => acc) [])
      else Except.ok []
  | _ => Except.ok []

/-- One direct-column KPI candidate (candidates 1, 2 and 4 of
extractors.py:637-648, 672-677): applicable when the column exists and the
row's value passes `pd.notna(...) and isinstance(..., dict)` — note *any*
dict is accepted, including the empty one. `ok none` means "fall through to
the next candidate", `ok (some rows)` means this candidate was used (with
`continue`), `error` a raise. -/
def kpiCandidateDirect (key : String) (cols : List String) (row : Py.Dict) :
    Except Unit (Option (List Py.Dict)) :=
  if cols.contains key then
    let k := dget row key
    match notnaTruth k with
    | Option.none => Except.error ()
    | some b =>
        if b && isDictB k then (extractKpiRows row k).map some
        else Except.ok Option.none
  else Except.ok Option.none

/-- One nested-container KPI candidate (candidates 3 and 5 of
extractors.py:650-670, 679-699): the container must be a dict (or a
non-empty string parsing to one — `parse` models `json.loads`, `none` a
swallowed parse failure), and its `kpi` entry must be a *truthy* dict
(`if kpi_data and isinstance(kpi_data, dict)`) — here, unlike the direct
candidates, an empty dict falls through. -/
def kpiCandidateNested (key : String) (parse : String → Option Val) (cols : List String)
    (row : Py.Dict) : Except Unit (Option (List Py.Dict)) :=
  if cols.contains key then
    let c := dget row key
    match notnaTruth c with
    | Option.none => Except.error ()
    | some b =>
        if b then
          match c with
          | Val.dict cd =>
              let k := (dlookup "kpi" cd).getD Val.none
              if truthy k && isDictB k then (extractKpiRows row k).map some
              else Except.ok Option.none
          | Val.str s =>
              if !(s = "") then
                match parse s with
                | some (Val.dict pDict) =>
                    let k := (dlookup "kpi" pDict).getD Val.none
                    if truthy k && isDictB k then (extractKpiRows row k).map some
                    else Except.ok Option.none
                | _ => Except.ok Option.none
              else Except.ok Option.none
          | _ => Except.ok Option.none
        else Except.ok Option.none
  else Except.ok Option.none

/-- Chain two candidates: a raise or a use stops the chain; a fall-through
tries the next. -/
def orCand (x : Except Unit (Option (List Py.Dict)))
    (next : Unit → Except Unit (Option (List Py.Dict))) :
    Except Unit (Option (List Py.Dict)) :=
  match x with
  | Except.error e => Except.error e
  | Except.ok (some rows) => Except.ok (some rows)
  | Except.ok Option.none => next ()

/-- The five-candidate KPI resolution loop (extractors.py:629-699) for one
record: `kpi`, `computed.kpi`, `kpi` nested in `computed`, `v1legacy.kpi`,
`kpi` nested in `v1legacy`, first applicable candidate used; a record
failing all five contributes no rows. -/
def kpiRowsForRecord (parse : String → Option Val) (cols : List String) (row : Py.Dict) :
    Except Unit (List Py.Dict) :=
  match orCand (kpiCandidateDirect "kpi" cols row) (fun _ =>
        orCand (kpiCandidateDirect "computed.kpi" cols row) (fun _ =>
        orCand (kpiCandidateNested "computed" parse cols row) (fun _ =>
        orCand (kpiCandidateDirect "v1legacy.kpi" cols row) (fun _ =>
        kpiCandidateNested "v1legacy" parse cols row)))) with
  | Except.error e => Except.error e
  | Except.ok (some rows) => Except.ok rows
  | Except.ok Option.none => Except.ok []

/-- The DataFrame's column list (membership is all that is consulted). -/
def chunkCols (chunk : List Py.Dict) : List String :=
  chunk.flatMap (fun r => r.map Prod.fst)

/-- The `07_kpi_data` rows of a chunk. -/
def kpiChunkRows (parse : String → Option Val) (chunk : List Py.Dict) :
    Except Unit (List Py.Dict) :=
  (mapME (kpiRowsForRecord parse (chunkCols chunk)) chunk).map List.flatten

/-! ### Embedded-article forwarding (extractors.py:705-765) -/

def isListB : Val → Bool
  | Val.list _ => true
  | _ => false

/-- The parent identity attached to each embedded article
(extractors.py:722-726): raw `socialName`/`siren`/`siret` values. -/
def companyInfoOf (record : Py.Dict) : Val :=
  Val.dict [("label", dgetD record "socialName" (Val.str "")),
            ("siren", dgetD record "siren" (Val.str "")),
            ("siret", dgetD record "siret" (Val.str ""))]

/-- The body of `extract_articles_from_record`'s loop (extractors.py:714-729)
for one embedded article: skip falsy/non-dict/non-list items (`none`); ensure
a `companies` list; append the parent identity unless an equal dict is
already present. A `companies` key holding a non-list raises
(`in`/`.append` on it). -/
def articleWithCompany (record : Py.Dict) (article : Val) : Except Unit (Option Py.Dict) :=
  if truthy article && (isDictB article || isListB article) then
    let base : Py.Dict := match article with
      | Val.dict d => d
      | _ => []   -- a list-valued article contributes an empty dict
    let base := if hasKey base "companies" then base else base ++ [("companies", Val.list [])]
    let ci := companyInfoOf record
    match (dlookup "companies" base).getD Val.none with
    | Val.list l =>
        Except.ok (some (dset base "companies"
          (Val.list (if l.any (pyEq ci) then l else l ++ [ci]))))
    | _ => Except.error ()
  else Except.ok Option.none

/-- Model of `extract_articles_from_record` (extractors.py:710-729) applied to one
articles payload: falsy payloads contribute nothing; a non-list payload is
wrapped in a singleton list. -/
def articlesFromData (record : Py.Dict) (articlesData : Val) : Except Unit (List Py.Dict) :=
  if !truthy articlesData then Except.ok []
  else
    filterMapME (articleWithCompany record)
      (match articlesData with
        | Val.list l => l
        | v => [v])

/-- The article-record collection for one input record
(extractors.py:731-747): top-level `article` and `articles`, then the same
two keys under a dict-valued `computed`, then under a dict-valued
`v1legacy`. -/
def articlesRecordsForRecord (record : Py.Dict) : Except Unit (List Py.Dict) := do
  let top1 ← if hasKey record "article" && truthy (dget record "article") then
      articlesFromData record (dget record "article") else pure []
  let top2 ← if hasKey record "articles" && truthy (dget record "articles") then
      articlesFromData record (dget record "articles") else pure []
  let comp ← match dlookup "computed" record with
    | some (Val.dict cd) => do
        let a ← if hasKey cd "article" && truthy (dgetD cd "article" Val.none) then
            articlesFromData record (dgetD cd "article" Val.none) else pure []
        let b ← if hasKey cd "articles" && truthy (dgetD cd "articles" Val.none) then
            articlesFromData record (dgetD cd "articles" Val.none) else pure []
        pure (a ++ b)
    | _ => pure []
  let leg ← match dlookup "v1legacy" record with
    | some (Val.dict cd) => do
        let a ← if hasKey cd "article" && truthy (dgetD cd "article" Val.none) then
            articlesFromData record (dgetD cd "article" Val.none) else pure []
        let b ← if hasKey cd "articles" && truthy (dgetD cd "articles" Val.none) then
            articlesFromData record (dgetD cd "articles" Val.none) else pure []
        pure (a ++ b)
    | _ => pure []
  pure (top1 ++ top2 ++ comp ++ leg)

/-- End-to-end: the `09_articles` rows contributed by one company record's
embedded articles — the collected article records fed to
`VectorizedArticleExtractor.extract_chunk` (extractors.py:760-763). -/
def forwardedArticleRows (record : Py.Dict) : Except Unit (List Py.Dict) := do
  articleExtractChunk (← articlesRecordsForRecord record)

/-! ## Predicates used by the claim statements -/

/-- Inputs on which the claims' "empty or 14-digit" postcondition of
`format_siret` is asserted: missing values, the empty string, the `"nan"`
marker, integers in `[0, 10^14)`, and decimal digit strings of at most 14
digits. -/
def siretDomain (v : Val) : Prop :=
  v = Val.none ∨
  (∃ n : Int, v = Val.int n ∧ 0 ≤ n ∧ n < 10 ^ 14) ∨
  (∃ t : String, v = Val.str t ∧
    (t = "" ∨ t = "nan" ∨ (t.data ≠ [] ∧ (∀ c ∈ t.data, c.isDigit) ∧ t.data.length ≤ 14)))

/-- A row carries the three identity columns. -/
def identityPresent (r : Py.Dict) : Prop :=
  (dlookup "company_name" r).isSome ∧ (dlookup "siren" r).isSome ∧ (dlookup "siret" r).isSome

/-- A row carries the three identity columns with non-null values. -/
def identityNonNull (r : Py.Dict) : Prop :=
  (∃ v, dlookup "company_name" r = some v ∧ v ≠ Val.none) ∧
  (∃ v, dlookup "siren" r = some v ∧ v ≠ Val.none) ∧
  (∃ v, dlookup "siret" r = some v ∧ v ≠ Val.none)

/-- A company reference whose `label`, when present, is not an explicit null
(references violating this yield a null `company_name` in article rows). -/
def labelNotNull (c : Val) : Prop :=
  ∀ d, c = Val.dict d → dgetD d "label" (Val.str "") ≠ Val.none

/-- A year-keyed KPI mapping none of whose per-year metric dicts binds an
identity column name (mappings violating this overwrite the identity columns
of `07_kpi_data` rows when merged in). -/
def kpiMapClean (kd : List (String × Val)) : Prop :=
  ∀ p ∈ kd, ∀ yk, p.2 = Val.dict yk →
    ∀ q ∈ yk, q.1 ≠ "company_name" ∧ q.1 ≠ "siren" ∧ q.1 ≠ "siret"

/-! ## Decimal-digit arithmetic lemmas -/

namespace Py

theorem digitChar_isDigit (n : Nat) : (digitChar n).isDigit := by
  unfold digitChar
  split <;> decide

theorem digitVal_digitChar {n : Nat} (h : n < 10) : digitVal (digitChar n) = n := by
  interval_cases n <;> decide

theorem char_toNat_inj {a b : Char} (h : a.toNat = b.toNat) : a = b := by
  have ha := Char.ofNat_toNat a
  have hb := Char.ofNat_toNat b
  rw [← ha, ← hb, h]

theorem isDigit_toNat_bounds {c : Char} (h : c.isDigit) : 48 ≤ c.toNat ∧ c.toNat ≤ 57 := by
  simp [Char.isDigit] at h
  exact ⟨h.1, h.2⟩

theorem digitChar_digitVal {c : Char} (h : c.isDigit) : digitChar (digitVal c) = c := by
  obtain ⟨h1, h2⟩ := isDigit_toNat_bounds h
  have hd : digitVal c < 10 := by unfold digitVal; omega
  apply char_toNat_inj
  have : (digitChar (digitVal c)).toNat = 48 + digitVal c := by
    interval_cases h : digitVal c <;> decide
  rw [this]; unfold digitVal; omega

theorem digitVal_lt_ten {c : Char} (h : c.isDigit) : digitVal c < 10 := by
  obtain ⟨h1, h2⟩ := isDigit_toNat_bounds h
  unfold digitVal; omega

theorem digitVal_pos {c : Char} (h : c.isDigit) (h0 : c ≠ '0') : 1 ≤ digitVal c := by
  obtain ⟨h1, h2⟩ := isDigit_toNat_bounds h
  have : c.toNat ≠ 48 := fun hc => h0 (char_toNat_inj (by rw [hc]; rfl))
  unfold digitVal; omega

theorem foldl_digits_general (l : List Char) :
    ∀ a : Nat, l.foldl (fun a c => a * 10 + digitVal c) a = a * 10 ^ l.length + digitsToNat l := by
  induction l with
  | nil => intro a; simp [digitsToNat]
  | cons c l ih =>
      intro a
      have h1 := ih (a * 10 + digitVal c)
      have h2 := ih (digitVal c)
      simp only [List.foldl_cons, List.length_cons]
      rw [h1]
      have : digitsToNat (c :: l) = digitVal c * 10 ^ l.length + digitsToNat l := by
        simp only [digitsToNat, List.foldl_cons]
        have := ih (0 * 10 + digitVal c)
        simpa using this
      rw [this, pow_succ]
      ring

theorem digitsToNat_cons (c : Char) (l : List Char) :
    digitsToNat (c :: l) = digitVal c * 10 ^ l.length + digitsToNat l := by
  simp only [digitsToNat, List.foldl_cons]
  simpa using foldl_digits_general l (0 * 10 + digitVal c)

theorem digitsToNat_append (l₁ l₂ : List Char) :
    digitsToNat (l₁ ++ l₂) = digitsToNat l₁ * 10 ^ l₂.length + digitsToNat l₂ := by
  simp only [digitsToNat, List.foldl_append]
  exact foldl_digits_general l₂ _

theorem digitsToNat_replicate_zero (j : Nat) : digitsToNat (List.replicate j '0') = 0 := by
  induction j with
  | zero => rfl
  | succ j ih =>
      rw [List.replicate_succ, digitsToNat_cons, ih]
      simp [show digitVal '0' = 0 from rfl]

theorem digitsToNat_lt (l : List Char) (h : ∀ c ∈ l, c.isDigit) :
    digitsToNat l < 10 ^ l.length := by
  induction l with
  | nil => simp [digitsToNat]
  | cons c l ih =>
      have hc := digitVal_lt_ten (h c (by simp))
      have hl := ih (fun x hx => h x (by simp [hx]))
      rw [digitsToNat_cons, List.length_cons, pow_succ]
      nlinarith [pow_pos (by norm_num : (0:ℕ) < 10) l.length]

theorem digitsOfAux_congr : ∀ f₁ f₂ n, n < f₁ → n < f₂ → digitsOfAux f₁ n = digitsOfAux f₂ n := by
  intro f₁
  induction f₁ with
  | zero => intro f₂ n h; omega
  | succ f ih =>
      intro f₂ n h1 h2
      cases f₂ with
      | zero => omega
      | succ g =>
          simp only [digitsOfAux]
          by_cases hn : n < 10
          · simp [hn]
          · simp only [hn, if_false]
            have hdiv : n / 10 < n := Nat.div_lt_self (by omega) (by omega)
            rw [ih g (n / 10) (by omega) (by omega)]

theorem digitsOfAux_eq (f n : Nat) (h : n < f) : digitsOfAux f n = digitsOf n :=
  digitsOfAux_congr f (n + 1) n h (Nat.lt_succ_self n)

theorem digitsOf_small {n : Nat} (h : n < 10) : digitsOf n = [digitChar n] := by
  simp [digitsOf, digitsOfAux, h]

theorem digitsOf_step {n : Nat} (h : ¬ n < 10) :
    digitsOf n = digitsOf (n / 10) ++ [digitChar (n % 10)] := by
  have hdiv : n / 10 < n := Nat.div_lt_self (by omega) (by omega)
  simp only [digitsOf, digitsOfAux, h, if_false]
  rw [digitsOfAux_eq n (n / 10) hdiv]
  rfl

theorem digitsOf_ne_nil (n : Nat) : digitsOf n ≠ [] := by
  by_cases h : n < 10
  · rw [digitsOf_small h]; simp
  · rw [digitsOf_step h]; simp

theorem digitsOf_all_digit (n : Nat) : ∀ c ∈ digitsOf n, c.isDigit := by
  induction n using Nat.strong_induction_on with
  | _ n ih =>
      by_cases h : n < 10
      · rw [digitsOf_small h]
        intro c hc
        simp at hc
        subst hc
        exact digitChar_isDigit n
      · rw [digitsOf_step h]
        intro c hc
        rcases List.mem_append.mp hc with h1 | h1
        · exact ih (n / 10) (Nat.div_lt_self (by omega) (by omega)) c h1
        · simp at h1; subst h1; exact digitChar_isDigit _

theorem digitsToNat_digitsOf (n : Nat) : digitsToNat (digitsOf n) = n := by
  induction n using Nat.strong_induction_on with
  | _ n ih =>
      by_cases h : n < 10
      · rw [digitsOf_small h, digitsToNat_cons]
        simp [digitsToNat, digitVal_digitChar h]
      · rw [digitsOf_step h, digitsToNat_append]
        have := ih (n / 10) (Nat.div_lt_self (by omega) (by omega))
        rw [this, digitsToNat_cons]
        simp only [digitsToNat, List.foldl_nil, List.length_nil, List.length_cons, pow_zero,
          pow_one, zero_add, mul_one, Nat.add_zero]
        rw [digitVal_digitChar (Nat.mod_lt n (by omega))]
        omega

theorem digitsOf_length_le {n k : Nat} (hk : 1 ≤ k) (h : n < 10 ^ k) :
    (digitsOf n).length ≤ k := by
  induction n using Nat.strong_induction_on generalizing k with
  | _ n ih =>
      by_cases hn : n < 10
      · rw [digitsOf_small hn]; simpa using hk
      · rw [digitsOf_step hn]
        have hk2 : 2 ≤ k := by
          by_contra hlt
          have : k = 1 := by omega
          subst this
          simp at h
          omega
        have hdiv : n / 10 < n := Nat.div_lt_self (by omega) (by omega)
        have hdivlt : n / 10 < 10 ^ (k - 1) := by
          have : n < 10 ^ (k - 1) * 10 := by
            have : 10 ^ (k - 1) * 10 = 10 ^ k := by
              rw [← pow_succ]
              congr 1
              omega
            omega
          omega
        have := ih (n / 10) hdiv (by omega) hdivlt
        simp only [List.length_append, List.length_cons, List.length_nil]
        omega

theorem digitsOf_canonical :
    ∀ (rest : List Char) (c : Char), c.isDigit → c ≠ '0' → (∀ x ∈ rest, x.isDigit) →
      digitsOf (digitsToNat (c :: rest)) = c :: rest := by
  intro rest
  induction rest using List.reverseRecOn with
  | nil =>
      intro c hc _ _
      have hlt := digitVal_lt_ten hc
      rw [digitsToNat_cons]
      simp only [List.length_nil, pow_zero, mul_one, digitsToNat, List.foldl_nil, Nat.add_zero]
      rw [digitsOf_small hlt, digitChar_digitVal hc]
  | append_singleton ys z ih =>
      intro c hc h0 hrest
      have hys : ∀ x ∈ ys, x.isDigit := fun x hx => hrest x (by simp [hx])
      have hz : z.isDigit := hrest z (by simp)
      have hIH := ih c hc h0 hys
      have hm1 : 1 ≤ digitsToNat (c :: ys) := by
        rw [digitsToNat_cons]
        have := digitVal_pos hc h0
        have := Nat.one_le_two_pow (n := 1)
        have hp : 1 ≤ 10 ^ ys.length := Nat.one_le_pow _ _ (by omega)
        nlinarith
      have hsplit : (c :: ys) ++ [z] = c :: (ys ++ [z]) := by simp
      rw [← hsplit, digitsToNat_append]
      simp only [List.length_cons, List.length_nil, zero_add, pow_one]
      have hN : ¬ digitsToNat (c :: ys) * 10 + digitsToNat [z] < 10 := by
        have : digitsToNat (c :: ys) * 10 ≥ 10 := by omega
        omega
      rw [digitsOf_step hN]
      have hzval : digitsToNat [z] = digitVal z := by
        simp [digitsToNat, digitVal]
      have hzlt : digitVal z < 10 := digitVal_lt_ten hz
      have hdiv : (digitsToNat (c :: ys) * 10 + digitsToNat [z]) / 10 = digitsToNat (c :: ys) := by
        rw [hzval]
        omega
      have hmod : (digitsToNat (c :: ys) * 10 + digitsToNat [z]) % 10 = digitVal z := by
        rw [hzval]
        omega
      rw [hdiv, hmod, hIH, digitChar_digitVal hz]

theorem dropWhile_head_false {p : Char → Bool} :
    ∀ (l : List Char) (c : Char) (rest : List Char), l.dropWhile p = c :: rest → p c = false := by
  intro l
  induction l with
  | nil => intro c rest h; simp [List.dropWhile] at h
  | cons a l ih =>
      intro c rest h
      rw [List.dropWhile_cons] at h
      by_cases hp : p a
      · simp [hp] at h; exact ih c rest h
      · simp [hp] at h
        rw [← h.1]
        exact Bool.of_not_eq_true hp

/-- Core round-trip: re-padding the parsed value of a 14-digit string gives
back the string. -/
theorem zeroPad_roundtrip (l : List Char) (h14 : l.length = 14) (hd : ∀ c ∈ l, c.isDigit) :
    zeroPadL 14 (digitsOf (digitsToNat l)) = l := by
  set p : Char → Bool := fun c => c = '0' with hp
  have hsplit : l.takeWhile p ++ l.dropWhile p = l := List.takeWhile_append_dropWhile p l
  have htake : l.takeWhile p = List.replicate (l.takeWhile p).length '0' := by
    apply List.eq_replicate_of_mem
    intro b hb
    have := List.mem_takeWhile_imp hb
    simpa [hp] using this
  cases hdrop : l.dropWhile p with
  | nil =>
      have hl : l.takeWhile p = l := by
        have h0 := hsplit
        rw [hdrop] at h0
        simpa using h0
      have hall : l = List.replicate 14 '0' := by
        have h' := htake
        rw [hl] at h'
        rw [h14] at h'
        exact h'
      subst hall
      rw [digitsToNat_replicate_zero, digitsOf_small (by omega)]
      show List.replicate (14 - 1) '0' ++ [digitChar 0] = List.replicate 14 '0'
      rw [show digitChar 0 = '0' from rfl, show (14 : Nat) - 1 = 13 from rfl,
        ← List.replicate_succ' 13 '0']
  | cons c rest =>
      have hc0 : c ≠ '0' := by
        have := dropWhile_head_false l c rest hdrop
        simpa [hp] using this
      have hmem : ∀ x ∈ c :: rest, x.isDigit := by
        intro x hx
        apply hd
        rw [← hsplit, hdrop]
        exact List.mem_append_right _ hx
      have hc : c.isDigit := hmem c (by simp)
      have hrest : ∀ x ∈ rest, x.isDigit := fun x hx => hmem x (by simp [hx])
      have hval : digitsToNat l = digitsToNat (c :: rest) := by
        conv_lhs => rw [← hsplit, hdrop, htake]
        rw [digitsToNat_append, digitsToNat_replicate_zero]
        simp
      rw [hval, digitsOf_canonical rest c hc hc0 hrest]
      have hlen : (l.takeWhile p).length + (c :: rest).length = 14 := by
        rw [← h14]
        conv_rhs => rw [← hsplit, hdrop]
        simp
      unfold zeroPadL
      have : 14 - (c :: rest).length = (l.takeWhile p).length := by omega
      rw [this, ← htake]
      conv_rhs => rw [← hsplit, hdrop]

theorem bindE_ok {α β : Type} (a : α) (k : α → Except Unit β) :
    (Except.ok a >>= k : Except Unit β) = k a := rfl

theorem bindE_error {α β : Type} (k : α → Except Unit β) :
    (Except.error () >>= k : Except Unit β) = Except.error () := rfl

theorem mapME_ok_length {α β : Type} (f : α → Except Unit β) :
    ∀ (l : List α) (out : List β), mapME f l = Except.ok out → out.length = l.length := by
  intro l
  induction l with
  | nil =>
      intro out h
      injection h with h
      rw [← h]
      rfl
  | cons a l ih =>
      intro out h
      unfold mapME at h
      cases hfa : f a with
      | error u => cases u; rw [hfa, bindE_error] at h; cases h
      | ok b =>
          rw [hfa, bindE_ok] at h
          cases hml : mapME f l with
          | error u => cases u; rw [hml, bindE_error] at h; cases h
          | ok bs =>
              rw [hml, bindE_ok] at h
              injection h with h
              rw [← h]
              simp [ih bs hml]

theorem mapME_forall_mem {α β : Type} (f : α → Except Unit β) (P : β → Prop) :
    ∀ (l : List α) (out : List β), mapME f l = Except.ok out →
      (∀ a ∈ l, ∀ b, f a = Except.ok b → P b) → ∀ b ∈ out, P b := by
  intro l
  induction l with
  | nil =>
      intro out h _
      injection h with h
      rw [← h]
      intro b hb
      cases hb
  | cons a l ih =>
      intro out h hP
      unfold mapME at h
      cases hfa : f a with
      | error u => cases u; rw [hfa, bindE_error] at h; cases h
      | ok b =>
          rw [hfa, bindE_ok] at h
          cases hml : mapME f l with
          | error u => cases u; rw [hml, bindE_error] at h; cases h
          | ok bs =>
              rw [hml, bindE_ok] at h
              injection h with h
              rw [← h]
              intro x hx
              rcases List.mem_cons.mp hx with hx | hx
              · subst hx
                exact hP a (by simp) x hfa
              · exact ih bs hml (fun a' ha' => hP a' (by simp [ha'])) x hx

theorem mapME_congr_ok {α β : Type} (f : α → Except Unit β) (g : α → β) :
    ∀ l : List α, (∀ a ∈ l, f a = Except.ok (g a)) → mapME f l = Except.ok (l.map g) := by
  intro l
  induction l with
  | nil => intro _; rfl
  | cons a l ih =>
      intro h
      unfold mapME
      rw [h a (by simp), bindE_ok, ih (fun a' ha' => h a' (by simp [ha'])), bindE_ok]
      rfl

theorem mapME_mem_exists {α β : Type} (f : α → Except Unit β) :
    ∀ (l : List α) (out : List β), mapME f l = Except.ok out →
      ∀ b ∈ out, ∃ a ∈ l, f a = Except.ok b := by
  intro l
  induction l with
  | nil =>
      intro out h b hb
      injection h with h
      rw [← h] at hb
      cases hb
  | cons a l ih =>
      intro out h b hb
      unfold mapME at h
      cases hfa : f a with
      | error u => cases u; rw [hfa, bindE_error] at h; cases h
      | ok b0 =>
          rw [hfa, bindE_ok] at h
          cases hml : mapME f l with
          | error u => cases u; rw [hml, bindE_error] at h; cases h
          | ok bs =>
              rw [hml, bindE_ok] at h
              injection h with h
              rw [← h] at hb
              rcases List.mem_cons.mp hb with hb | hb
              · exact ⟨a, by simp, by rw [hfa, hb]⟩
              · obtain ⟨a', ha', hfa'⟩ := ih bs hml b hb
                exact ⟨a', by simp [ha'], hfa'⟩

theorem outerSafeGetList_ne_nil {v : Val} {l : List Val} (h : outerSafeGetList v = some l) :
    l ≠ [] := by
  cases v with
  | list xs =>
      match xs with
      | [] => cases h
      | [x] =>
          simp only [outerSafeGetList] at h
          by_cases hx : isNa x
          · rw [if_pos hx] at h; cases h
          · rw [if_neg hx] at h
            injection h with h
            rw [← h]
            simp
      | x :: y :: t =>
          simp only [outerSafeGetList] at h
          injection h with h
          rw [← h]
          simp
  | none => cases h
  | str s => cases h
  | int n => cases h
  | bool b => cases h
  | dict d => cases h

theorem orElse_eq_some {α : Type} {x : Option α} {f : Unit → Option α} {a : α}
    (h : x.orElse f = some a) : x = some a ∨ (x = Option.none ∧ f () = some a) := by
  cases x with
  | none => exact Or.inr ⟨rfl, h⟩
  | some b => exact Or.inl h

theorem digit_not_whitespace {c : Char} (h : c.isDigit) : c.isWhitespace = false := by
  obtain ⟨h1, h2⟩ := isDigit_toNat_bounds h
  unfold Char.isWhitespace
  have hs : c ≠ ' ' := fun he => absurd h1 (by subst he; decide)
  have ht : c ≠ '\t' := fun he => absurd h1 (by subst he; decide)
  have hr : c ≠ '\r' := fun he => absurd h1 (by subst he; decide)
  have hn : c ≠ '\n' := fun he => absurd h1 (by subst he; decide)
  simp [hs, ht, hr, hn]

theorem dropWhile_of_all_false {p : Char → Bool} :
    ∀ l : List Char, (∀ c ∈ l, p c = false) → l.dropWhile p = l := by
  intro l h
  cases l with
  | nil => rfl
  | cons c rest =>
      rw [List.dropWhile_cons, h c (by simp)]
      simp

theorem stripChars_of_digits {l : List Char} (h : ∀ c ∈ l, c.isDigit) : stripChars l = l := by
  unfold stripChars
  have h1 : l.dropWhile Char.isWhitespace = l :=
    dropWhile_of_all_false l (fun c hc => digit_not_whitespace (h c hc))
  rw [h1]
  have h2 : l.reverse.dropWhile Char.isWhitespace = l.reverse :=
    dropWhile_of_all_false l.reverse
      (fun c hc => digit_not_whitespace (h c (List.mem_reverse.mp hc)))
  rw [h2, List.reverse_reverse]

theorem pow14_int : (10 : Int) ^ 14 = 100000000000000 := by norm_num

theorem pow14_nat : (10 : Nat) ^ 14 = 100000000000000 := by norm_num

/-- Characterisation of `f"{n:014d}"` for `0 ≤ n < 10^14`: a 14-character
all-digit string whose decimal value is `n`. -/
theorem pyFormat014_spec {n : Int} (h0 : 0 ≤ n) (h14 : n < 10 ^ 14) :
    (pyFormat014 n).length = 14 ∧ (∀ c ∈ (pyFormat014 n).data, c.isDigit) ∧
      ((digitsToNat (pyFormat014 n).data : Int) = n) := by
  have hn : ¬ n < 0 := by omega
  have hcast : (n.toNat : Int) = n := Int.toNat_of_nonneg h0
  have htn : n.toNat < 10 ^ 14 := by
    rw [pow14_nat]
    rw [pow14_int] at h14
    omega
  have hlen : (digitsOf n.toNat).length ≤ 14 := digitsOf_length_le (by omega) htn
  unfold pyFormat014
  rw [if_neg hn]
  refine ⟨?_, ?_, ?_⟩
  · show (zeroPadL 14 (digitsOf n.toNat)).length = 14
    unfold zeroPadL
    simp only [List.length_append, List.length_replicate]
    omega
  · show ∀ c ∈ zeroPadL 14 (digitsOf n.toNat), c.isDigit
    unfold zeroPadL
    intro c hc
    rcases List.mem_append.mp hc with h | h
    · have := List.eq_of_mem_replicate h
      subst this
      decide
    · exact digitsOf_all_digit _ c h
  · show (digitsToNat (zeroPadL 14 (digitsOf n.toNat)) : Int) = n
    unfold zeroPadL
    rw [digitsToNat_append, digitsToNat_replicate_zero, digitsToNat_digitsOf]
    simpa using hcast

/-- Evaluation of `format_siret` on a non-empty all-digit string of at most 14
characters: the string parses and is re-padded. -/
theorem formatSiret_digit_string {s : String} (hne : s.data ≠ [])
    (hd : ∀ c ∈ s.data, c.isDigit) :
    formatSiret (Val.str s) = Except.ok (pyFormat014 ((digitsToNat s.data : Nat) : Int)) := by
  have hs0 : s ≠ "" := by
    intro he
    subst he
    exact hne rfl
  have hsnan : s ≠ "nan" := by
    intro he
    subst he
    have := hd 'n' (by decide)
    simp at this
  unfold formatSiret
  show (if eqStr (Val.str s) "" then Except.ok "" else _) = _
  rw [if_neg (by simp [eqStr, hs0])]
  rw [if_neg (by simp [eqStr, hsnan])]
  show (let valStr := stripChars (pyStr (Val.str s)).data
        if valStr.isEmpty || valStr == "nan".data then Except.ok ""
        else match pyNumInt? valStr with
          | some n => Except.ok (pyFormat014 n)
          | Option.none => Except.ok (String.mk valStr)) = _
  have hstrip : stripChars (pyStr (Val.str s)).data = s.data := stripChars_of_digits hd
  simp only [hstrip]
  have hemp : s.data.isEmpty = false := by
    cases h : s.data with
    | nil => exact absurd h hne
    | cons c rest => rfl
  have hnan2 : (s.data == "nan".data) = false := by
    apply beq_eq_false_iff_ne.mpr
    intro he
    apply hsnan
    calc s = String.mk s.data := rfl
      _ = String.mk "nan".data := by rw [he]
      _ = "nan" := rfl
  rw [hemp, hnan2]
  simp only [Bool.or_self, if_false]
  cases hsd : s.data with
  | nil => exact absurd hsd hne
  | cons c rest =>
      have hc : c.isDigit := by
        apply hd
        rw [hsd]
        simp
      have hcm : c ≠ '-' := by
        intro he
        subst he
        simp at hc
      have hparse : pyNumInt? (c :: rest) =
          (parseDigits? (c :: rest)).map (fun n => (n : Int)) := by
        unfold pyNumInt?
        split
        · rename_i rest' heq
          exact absurd (List.cons.inj heq).1 hcm
        · rfl
      rw [hparse]
      have hall : (c :: rest).all Char.isDigit = true := by
        rw [List.all_eq_true]
        intro x hx
        apply hd
        rw [hsd]
        exact hx
      unfold parseDigits?
      rw [hall]
      simp

end Py

/-- C8 (code_bug evidence): evaluating `format_siret` at a two-element list
raises — `pd.isna` returns a two-element boolean array and its truth-test on
the function's first line, outside every `try`, raises `ValueError`. -/
theorem format_siret_raises_on_list :
    formatSiret (Val.list [Val.int 0, Val.int 1]) = Except.error () := rfl

/-- C4: `format_siret` normalization postconditions — (1) an integer `n` with
`0 ≤ n < 10^14` maps to the 14-character left-zero-padded decimal digit
string of `n` (characterised: length 14, all digits, decimal value `n`);
(2) the empty string, a null/NaN value, and the string `"nan"` map to the
empty string; (3) any string that is already a 14-digit decimal numeral maps
to itself (idempotence on canonical outputs). -/
theorem format_siret_normalization :
    (∀ (n : Int) (s : String), 0 ≤ n → n < 10 ^ 14 →
        formatSiret (Val.int n) = Except.ok s →
        s.length = 14 ∧ (∀ c ∈ s.data, c.isDigit) ∧ ((digitsToNat s.data : Int) = n)) ∧
    (formatSiret (Val.str "") = Except.ok "" ∧ formatSiret Val.none = Except.ok "" ∧
      formatSiret (Val.str "nan") = Except.ok "") ∧
    (∀ s : String, s.length = 14 → (∀ c ∈ s.data, c.isDigit) →
      formatSiret (Val.str s) = Except.ok s) := by
  refine ⟨?_, ⟨rfl, rfl, rfl⟩, ?_⟩
  · intro n s h0 h14 heval
    have : formatSiret (Val.int n) = Except.ok (pyFormat014 n) := rfl
    rw [this] at heval
    obtain ⟨h1, h2, h3⟩ := pyFormat014_spec h0 h14
    injection heval with heq
    subst heq
    exact ⟨h1, h2, h3⟩
  · intro s hlen hd
    have hne : s.data ≠ [] := by
      intro he
      have : s.length = 0 := by
        show s.data.length = 0
        rw [he]
        rfl
      omega
    rw [formatSiret_digit_string hne hd]
    congr 1
    have h14 : s.data.length = 14 := hlen
    have := zeroPad_roundtrip s.data h14 hd
    have hval : digitsToNat s.data < 10 ^ 14 := by
      calc digitsToNat s.data < 10 ^ s.data.length := digitsToNat_lt s.data hd
        _ = 10 ^ 14 := by rw [h14]
    unfold pyFormat014
    rw [if_neg (by omega)]
    rw [Int.toNat_natCast]
    rw [this]

/-- Witness for C4 at concrete inputs: part (1) at `n = 7`, part (3) at the
14-digit numeral `"99999999999999"`. -/
theorem format_siret_normalization_witness :
    ("00000000000007".length = 14 ∧ (∀ c ∈ "00000000000007".data, c.isDigit) ∧
      ((digitsToNat "00000000000007".data : Int) = 7)) ∧
    formatSiret (Val.str "99999999999999") = Except.ok "99999999999999" :=
  ⟨format_siret_normalization.1 7 "00000000000007" (by norm_num) (by norm_num) rfl,
   format_siret_normalization.2.2 "99999999999999" (by decide) (by decide)⟩

/-- C5 counterexample: `format_siret` applied to the (non-null, non-empty,
unparseable) string `"abc"` returns `"abc"` — neither the empty string nor a
14-character digit string, contradicting the claim's "for every possible
input" postcondition. -/
theorem siret_value_invariant_counterexample :
    formatSiret (Val.str "abc") = Except.ok "abc" ∧ "abc" ≠ "" ∧
      ¬("abc".length = 14 ∧ ∀ c ∈ "abc".data, c.isDigit) :=
  ⟨rfl, by decide, by decide⟩

/-- C5 amended: the "empty or 14-digit" postcondition holds on the inputs the
pipeline's normalization contract is about — null/missing values, the empty
string, `"nan"`, integers in `[0, 10^14)`, and digit strings of at most 14
digits; outside that domain `format_siret` can return the input string
unchanged (e.g. `"abc"`). -/
theorem siret_value_invariant_on_domain :
    ∀ v, siretDomain v → ∀ s, formatSiret v = Except.ok s →
      s = "" ∨ (s.length = 14 ∧ ∀ c ∈ s.data, c.isDigit) := by
  intro v hdom s heval
  rcases hdom with hnone | ⟨n, hv, h0, h14⟩ | ⟨t, hv, hcase⟩
  · subst hnone
    injection heval with heq
    exact Or.inl heq.symm
  · subst hv
    have : formatSiret (Val.int n) = Except.ok (pyFormat014 n) := rfl
    rw [this] at heval
    injection heval with heq
    subst heq
    obtain ⟨h1, h2, _⟩ := pyFormat014_spec h0 h14
    exact Or.inr ⟨h1, h2⟩
  · subst hv
    rcases hcase with h | h | ⟨hne, hd, hle⟩
    · subst h
      injection heval with heq
      exact Or.inl heq.symm
    · subst h
      injection heval with heq
      exact Or.inl heq.symm
    · rw [formatSiret_digit_string hne hd] at heval
      injection heval with heq
      subst heq
      have hval : digitsToNat t.data < 10 ^ 14 := by
        calc digitsToNat t.data < 10 ^ t.data.length := digitsToNat_lt t.data hd
          _ ≤ 10 ^ 14 := Nat.pow_le_pow_right (by omega) hle
      have h0' : (0 : Int) ≤ (digitsToNat t.data : Nat) := Int.natCast_nonneg _
      have h14' : ((digitsToNat t.data : Nat) : Int) < 10 ^ 14 := by
        rw [pow14_int]
        rw [pow14_nat] at hval
        omega
      obtain ⟨h1, h2, _⟩ := pyFormat014_spec h0' h14'
      exact Or.inr ⟨h1, h2⟩

/-- Witness for C5's amended theorem at the concrete in-domain input `"42"`. -/
theorem siret_value_invariant_on_domain_witness :
    "00000000000042" = "" ∨ ("00000000000042".length = 14 ∧ ∀ c ∈ "00000000000042".data, c.isDigit) :=
  siret_value_invariant_on_domain (Val.str "42")
    (Or.inr (Or.inr ⟨"42", rfl, Or.inr (Or.inr ⟨by decide, by decide, by decide⟩)⟩))
    "00000000000042" rfl

/-- C1: Article fan-out conservation — (1) for an input row whose resolved
company list is `cs` (necessarily non-empty), `extract_chunk` emits exactly
`cs.length` rows for it; (2) for a row on which both `companies` and
`all_companies` resolve to nothing, it emits exactly one row whose identity
key is the all-empty triple. -/
theorem article_fanout_conservation :
    (∀ (row : Py.Dict) (cs : List Val) (rows : List Py.Dict),
        resolvedArticleCompanies row = some cs → 0 < cs.length →
        articleRowsForRow row = Except.ok rows → rows.length = cs.length) ∧
    (∀ row : Py.Dict,
        outerSafeGetList (dget row "companies") = Option.none →
        outerSafeGetList (dget row "all_companies") = Option.none →
        articleRowsForRow row = Except.ok [createArticleRow row emptyBase] ∧
        dlookup "company_name" (createArticleRow row emptyBase) = some (Val.str "") ∧
        dlookup "siren" (createArticleRow row emptyBase) = some (Val.str "") ∧
        dlookup "siret" (createArticleRow row emptyBase) = some (Val.str "")) := by
  constructor
  · intro row cs rows hres _ hrows
    unfold articleRowsForRow at hrows
    rw [hres] at hrows
    exact mapME_ok_length _ cs rows hrows
  · intro row h1 h2
    have hres : resolvedArticleCompanies row = Option.none := by
      unfold resolvedArticleCompanies
      rw [h1, h2]
      rfl
    refine ⟨?_, rfl, rfl, rfl⟩
    unfold articleRowsForRow
    rw [hres]

/-- Witness for C1: a row with two company references fans out to 2 rows; a
row with neither list emits one all-empty-identity row. -/
theorem article_fanout_conservation_witness :
    ((articleRowsForRow [("companies",
        Val.list [Val.dict [("label", Val.str "A")], Val.dict [("label", Val.str "B")]])]).toOption.getD []).length =
      [Val.dict [("label", Val.str "A")], Val.dict [("label", Val.str "B")]].length ∧
    articleRowsForRow [("title", Val.str "t")] =
      Except.ok [createArticleRow [("title", Val.str "t")] emptyBase] :=
  ⟨article_fanout_conservation.1
      [("companies", Val.list [Val.dict [("label", Val.str "A")], Val.dict [("label", Val.str "B")]])]
      [Val.dict [("label", Val.str "A")], Val.dict [("label", Val.str "B")]]
      ((articleRowsForRow [("companies",
          Val.list [Val.dict [("label", Val.str "A")], Val.dict [("label", Val.str "B")]])]).toOption.getD [])
      rfl (by decide) rfl,
   (article_fanout_conservation.2 [("title", Val.str "t")] rfl rfl).1⟩

/-- C2: Signal additive union — when both the resolved company list `cs` and
the `sirets` list `ss` are non-empty, `extract_chunk` emits exactly
`cs.length + ss.length` rows for the row: the company-keyed rows followed by
the SIRET-keyed rows (both lists are used; no fallback). -/
theorem signal_additive_union :
    ∀ (row : Py.Dict) (cs ss : List Val) (rows : List Py.Dict),
      resolvedSignalCompanies row = some cs →
      outerSafeGetList (dget row "sirets") = some ss →
      signalRowsForRow row = Except.ok rows →
      rows.length = cs.length + ss.length ∧
      ∃ siretRows,
        mapME (fun s => (signalSiretBase s).map (createSignalRow row)) ss = Except.ok siretRows ∧
        rows = cs.map (fun c => createSignalRow row (signalCompanyBase c)) ++ siretRows := by
  intro row cs ss rows hres hsir hrows
  have hcs : cs ≠ [] := by
    unfold resolvedSignalCompanies at hres
    rcases orElse_eq_some hres with h | ⟨_, h⟩
    · rcases orElse_eq_some h with h' | ⟨_, h'⟩
      · exact outerSafeGetList_ne_nil h'
      · exact outerSafeGetList_ne_nil h'
    · exact outerSafeGetList_ne_nil h
  unfold signalRowsForRow at hrows
  rw [hres, hsir] at hrows
  simp only [Option.getD_some] at hrows
  have hcsE : cs.isEmpty = false := by
    cases cs with
    | nil => exact absurd rfl hcs
    | cons a l => rfl
  rw [hcsE] at hrows
  simp only [Bool.false_and, if_false] at hrows
  cases hm : mapME (fun s => (signalSiretBase s).map (createSignalRow row)) ss with
  | error u => cases u; rw [hm, bindE_error] at hrows; cases hrows
  | ok siretRows =>
      rw [hm, bindE_ok] at hrows
      injection hrows with hrows
      refine ⟨?_, siretRows, rfl, hrows.symm⟩
      rw [← hrows]
      simp [mapME_ok_length _ ss siretRows hm]

/-- Witness for C2: a signal row with 2 company references and 3 SIRET
entries emits exactly 2 + 3 = 5 rows. -/
theorem signal_additive_union_witness :
    ((signalRowsForRow [("companies", Val.list [Val.dict [("id", Val.str "111")], Val.dict [("id", Val.str "222")]]),
        ("sirets", Val.list [Val.str "1", Val.str "2", Val.str "3"])]).toOption.getD []).length =
      [Val.dict [("id", Val.str "111")], Val.dict [("id", Val.str "222")]].length +
      [Val.str "1", Val.str "2", Val.str "3"].length :=
  (signal_additive_union
      [("companies", Val.list [Val.dict [("id", Val.str "111")], Val.dict [("id", Val.str "222")]]),
        ("sirets", Val.list [Val.str "1", Val.str "2", Val.str "3"])]
      [Val.dict [("id", Val.str "111")], Val.dict [("id", Val.str "222")]]
      [Val.str "1", Val.str "2", Val.str "3"]
      ((signalRowsForRow [("companies", Val.list [Val.dict [("id", Val.str "111")], Val.dict [("id", Val.str "222")]]),
        ("sirets", Val.list [Val.str "1", Val.str "2", Val.str "3"])]).toOption.getD [])
      rfl rfl rfl).1

/-- Helper: the length of the list that `_create_signal_row`'s inner
`safe_get_list` resolves: 1 for a one-element list with a non-null element,
0 otherwise (multi-element lists raise inside `is_not_na`, which returns
`False`, so they default). -/
theorem innerSafeGetList_length (v : Val) :
    ((innerSafeGetList v).getD []).length =
      (match v with
       | Val.list [x] => if isNa x then 0 else 1
       | _ => 0) := by
  cases v with
  | list l =>
      match l with
      | [] => rfl
      | [x] =>
          simp only [innerSafeGetList]
          by_cases hx : isNa x
          · simp [hx]
          · simp [hx]
      | x :: y :: t => rfl
  | none => rfl
  | str s => rfl
  | int n => rfl
  | bool b => rfl
  | dict d => rfl

/-- Helper: every `base_index` the signal expander builds has exactly the
three identity keys. -/
theorem signalCompanyBase_shape (c : Val) :
    ∃ s, signalCompanyBase c =
      [("company_name", Val.str ""), ("siren", Val.str s), ("siret", Val.str "")] := by
  cases c <;> exact ⟨_, rfl⟩

theorem signalSiretBase_shape {s : Val} {d : Py.Dict} (h : signalSiretBase s = Except.ok d) :
    ∃ a e, d = [("company_name", Val.str ""), ("siren", Val.str a), ("siret", Val.str e)] := by
  unfold signalSiretBase at h
  generalize hG : (match s with
    | Val.dict dd => formatSiret (dgetD dd "siret" (Val.str ""))
    | v => formatSiret v) = fs at h
  cases fs with
  | error u => cases u; cases h
  | ok t =>
      injection h with h
      exact ⟨_, _, h.symm⟩

theorem signal_counts_of_base (row : Py.Dict) (a b c : Val) :
    dlookup "companies_count" (createSignalRow row [("company_name", a), ("siren", b), ("siret", c)]) =
      some (Val.int ((innerSafeGetList (dget row "companies")).getD []).length) ∧
    dlookup "sirets_count" (createSignalRow row [("company_name", a), ("siren", b), ("siret", c)]) =
      some (Val.int ((innerSafeGetList (dget row "sirets")).getD []).length) :=
  ⟨rfl, rfl⟩

/-- C10 counterexample: a signal row whose `companies` field is a 2-element
list and whose `sirets` field is a 3-element list fans out to 5 rows, but
every emitted row carries `companies_count = 0` and `sirets_count = 0` — not
the field lengths 2 and 3 the claim asserts. -/
theorem signal_counts_counterexample :
    ((signalRowsForRow [("companies", Val.list [Val.dict [("id", Val.str "111")], Val.dict [("id", Val.str "222")]]),
        ("sirets", Val.list [Val.str "1", Val.str "2", Val.str "3"])]).toOption.getD []).map
        (fun r => dlookup "companies_count" r) = List.replicate 5 (some (Val.int 0)) ∧
    ((signalRowsForRow [("companies", Val.list [Val.dict [("id", Val.str "111")], Val.dict [("id", Val.str "222")]]),
        ("sirets", Val.list [Val.str "1", Val.str "2", Val.str "3"])]).toOption.getD []).map
        (fun r => dlookup "sirets_count" r) = List.replicate 5 (some (Val.int 0)) ∧
    Val.int 0 ≠ Val.int 2 ∧ Val.int 0 ≠ Val.int 3 := by
  refine ⟨rfl, rfl, ?_, ?_⟩
  · intro h
    injection h with h
    exact absurd h (by decide)
  · intro h
    injection h with h
    exact absurd h (by decide)

/-- C10 amended: `companies_count` and `sirets_count` are computed from the
row's `companies` and `sirets` fields only (never from the
`companiesmain`/`allCompanies` fallbacks), but through the inner
`safe_get_list`, whose na-check raises on multi-element lists and is caught
as "missing": on every emitted row the count is 1 if the field is a
one-element list with a non-null element and 0 otherwise — in particular 0
for any list of two or more elements. -/
theorem signal_counts_amended :
    ∀ (row : Py.Dict) (rows : List Py.Dict), signalRowsForRow row = Except.ok rows →
      ∀ r ∈ rows,
        dlookup "companies_count" r =
          some (Val.int (Int.ofNat (match dget row "companies" with
            | Val.list [x] => if isNa x then 0 else 1
            | _ => 0))) ∧
        dlookup "sirets_count" r =
          some (Val.int (Int.ofNat (match dget row "sirets" with
            | Val.list [x] => if isNa x then 0 else 1
            | _ => 0))) := by
  intro row rows h r hr
  have key : ∀ a b c : Val, r = createSignalRow row [("company_name", a), ("siren", b), ("siret", c)] →
      dlookup "companies_count" r =
        some (Val.int (Int.ofNat (match dget row "companies" with
          | Val.list [x] => if isNa x then 0 else 1
          | _ => 0))) ∧
      dlookup "sirets_count" r =
        some (Val.int (Int.ofNat (match dget row "sirets" with
          | Val.list [x] => if isNa x then 0 else 1
          | _ => 0))) := by
    intro a b c hre
    subst hre
    obtain ⟨h1, h2⟩ := signal_counts_of_base row a b c
    rw [h1, h2, innerSafeGetList_length, innerSafeGetList_length]
    exact ⟨rfl, rfl⟩
  unfold signalRowsForRow at h
  by_cases hif : (((resolvedSignalCompanies row).getD []).isEmpty &&
      ((outerSafeGetList (dget row "sirets")).getD []).isEmpty) = true
  · rw [if_pos hif] at h
    injection h with h
    rw [← h] at hr
    rcases List.mem_singleton.mp hr with hre
    exact key (Val.str "") (Val.str "") (Val.str "") hre
  · rw [if_neg hif] at h
    cases hm : mapME (fun s => (signalSiretBase s).map (createSignalRow row))
        ((outerSafeGetList (dget row "sirets")).getD []) with
    | error u => cases u; rw [hm, bindE_error] at h; cases h
    | ok siretRows =>
        rw [hm, bindE_ok] at h
        injection h with h
        rw [← h] at hr
        rcases List.mem_append.mp hr with hc | hs
        · obtain ⟨c, _, hre⟩ := List.mem_map.mp hc
          obtain ⟨s, hsh⟩ := signalCompanyBase_shape c
          exact key _ _ _ (by rw [← hre, hsh])
        · obtain ⟨s, _, hb⟩ := mapME_mem_exists _ _ siretRows hm r hs
          cases hsb : signalSiretBase s with
          | error u => cases u; rw [hsb] at hb; cases hb
          | ok d =>
              rw [hsb] at hb
              injection hb with hb
              obtain ⟨a, e, hsh⟩ := signalSiretBase_shape hsb
              exact key _ _ _ (by rw [← hb, hsh])

/-- Witness for C10's amended theorem at a concrete row with a 2-element
`companies` list and 3-element `sirets` list (counts both 0). -/
theorem signal_counts_amended_witness :
    dlookup "companies_count"
        (createSignalRow [("companies", Val.list [Val.dict [("id", Val.str "111")], Val.dict [("id", Val.str "222")]]),
          ("sirets", Val.list [Val.str "1", Val.str "2", Val.str "3"])]
          (signalCompanyBase (Val.dict [("id", Val.str "111")]))) =
      some (Val.int (Int.ofNat (match dget [("companies", Val.list [Val.dict [("id", Val.str "111")], Val.dict [("id", Val.str "222")]]),
          ("sirets", Val.list [Val.str "1", Val.str "2", Val.str "3"])] "companies" with
        | Val.list [x] => if isNa x then 0 else 1
        | _ => 0))) :=
  (signal_counts_amended
    [("companies", Val.list [Val.dict [("id", Val.str "111")], Val.dict [("id", Val.str "222")]]),
      ("sirets", Val.list [Val.str "1", Val.str "2", Val.str "3"])]
    ((signalRowsForRow [("companies", Val.list [Val.dict [("id", Val.str "111")], Val.dict [("id", Val.str "222")]]),
      ("sirets", Val.list [Val.str "1", Val.str "2", Val.str "3"])]).toOption.getD [])
    rfl
    (createSignalRow [("companies", Val.list [Val.dict [("id", Val.str "111")], Val.dict [("id", Val.str "222")]]),
      ("sirets", Val.list [Val.str "1", Val.str "2", Val.str "3"])]
      (signalCompanyBase (Val.dict [("id", Val.str "111")])))
    (List.Mem.head _)).1

/-- Helper: a chunk containing a column is non-empty, and that column's
series is non-empty. -/
theorem colExists_ne_nil {chunk : List Py.Dict} {c : String}
    (h : colExists chunk c = true) : chunk ≠ [] := by
  intro he
  subst he
  cases h

theorem colSeries_isEmpty_false {chunk : List Py.Dict} (c : String) (h : chunk ≠ []) :
    (colSeries chunk c).isEmpty = false := by
  cases chunk with
  | nil => exact absurd rfl h
  | cons r rest => rfl

/-- C7 counterexample: a single-record chunk with `socialName = ""` (the
empty string) and `label = "X"` resolves `company_name` to `""`, not to
`"X"` — the per-record non-empty-wins fallback the claim describes does not
happen (the fallback is only consulted when the whole `socialName` column is
null). -/
theorem company_name_fallback_counterexample :
    companyNameSeries [[("socialName", Val.str ""), ("label", Val.str "X")]] = [Val.str ""] ∧
    ((baseIndexRows [[("socialName", Val.str ""), ("label", Val.str "X")]]).toOption.getD []).map
      (fun r => dlookup "company_name" r) = [some (Val.str "")] ∧
    Val.str "" ≠ Val.str "X" := by
  refine ⟨rfl, rfl, ?_⟩
  intro h
  injection h with h
  exact absurd h (by decide)

/-- C7 amended: the `socialName` → `label`/`name`/`raison_sociale` fallback
is chunk-level, not per-record — (1) whenever the `socialName` column exists
and holds at least one non-null value, the whole column is used as-is, so a
record with an empty-string (or merely missing) `socialName` gets the empty
name even when its `label` is non-empty; (2) the `label` column supplies
every record's name only when the `socialName` column exists but is entirely
null and `label` has some non-null value; (3) when the `socialName` column is
absent from a non-empty chunk, every record's name is the empty string and no
fallback is consulted. -/
theorem company_name_chunk_level_fallback :
    (∀ chunk : List Py.Dict, colExists chunk "socialName" = true →
        (colSeries chunk "socialName").all isNa = false →
        companyNameSeries chunk = colSeries chunk "socialName") ∧
    (∀ chunk : List Py.Dict, colExists chunk "socialName" = true →
        (colSeries chunk "socialName").all isNa = true →
        colExists chunk "label" = true →
        (colSeries chunk "label").all isNa = false →
        companyNameSeries chunk = colSeries chunk "label") ∧
    (∀ chunk : List Py.Dict, chunk ≠ [] → colExists chunk "socialName" = false →
        companyNameSeries chunk = chunk.map (fun _ => Val.str "")) := by
  refine ⟨?_, ?_, ?_⟩
  · intro chunk hex hna
    unfold companyNameSeries safeGetSeries
    rw [if_pos hex]
    show (if ((colSeries chunk "socialName").isEmpty || (colSeries chunk "socialName").all isNa) = true
        then companyNameAltLoop chunk ["label", "name", "raison_sociale"] (colSeries chunk "socialName")
        else colSeries chunk "socialName") = _
    rw [colSeries_isEmpty_false "socialName" (colExists_ne_nil hex), hna]
    rfl
  · intro chunk hex hna hlab hlabna
    unfold companyNameSeries safeGetSeries
    rw [if_pos hex]
    show (if ((colSeries chunk "socialName").isEmpty || (colSeries chunk "socialName").all isNa) = true
        then companyNameAltLoop chunk ["label", "name", "raison_sociale"] (colSeries chunk "socialName")
        else colSeries chunk "socialName") = _
    rw [colSeries_isEmpty_false "socialName" (colExists_ne_nil hex), hna]
    show companyNameAltLoop chunk ["label", "name", "raison_sociale"] _ = _
    unfold companyNameAltLoop
    rw [hlab]
    show (let s' := colSeries chunk "label";
        if !(s'.isEmpty || s'.all isNa) then s'
        else companyNameAltLoop chunk ["name", "raison_sociale"] s') = _
    show (if !((colSeries chunk "label").isEmpty || (colSeries chunk "label").all isNa)
        then colSeries chunk "label"
        else companyNameAltLoop chunk ["name", "raison_sociale"] (colSeries chunk "label")) = _
    rw [colSeries_isEmpty_false "label" (colExists_ne_nil hlab), hlabna]
    rfl
  · intro chunk hne hex
    unfold companyNameSeries safeGetSeries
    rw [hex]
    simp only [Bool.false_eq_true, if_false]
    have hisEmpty : (chunk.map (fun _ => Val.str "")).isEmpty = false := by
      cases chunk with
      | nil => exact absurd rfl hne
      | cons r rest => rfl
    have hall : (chunk.map (fun _ => Val.str "")).all isNa = false := by
      cases chunk with
      | nil => exact absurd rfl hne
      | cons r rest => rfl
    show (if ((chunk.map (fun _ => Val.str "")).isEmpty || (chunk.map (fun _ => Val.str "")).all isNa) = true
        then companyNameAltLoop chunk ["label", "name", "raison_sociale"] (chunk.map (fun _ => Val.str ""))
        else chunk.map (fun _ => Val.str "")) = _
    rw [hisEmpty, hall]
    rfl

/-- Witness for C7's amended theorem: part (1) at the counterexample chunk
(socialName present as the empty string, label "X" untouched), part (3) at a
chunk whose single record has only a `label`. -/
theorem company_name_chunk_level_fallback_witness :
    companyNameSeries [[("socialName", Val.str ""), ("label", Val.str "X")]] =
      colSeries [[("socialName", Val.str ""), ("label", Val.str "X")]] "socialName" ∧
    companyNameSeries [[("label", Val.str "X")]] =
      [[("label", Val.str "X")]].map (fun _ => Val.str "") :=
  ⟨company_name_chunk_level_fallback.1 [[("socialName", Val.str ""), ("label", Val.str "X")]] rfl rfl,
   company_name_chunk_level_fallback.2.2 [[("label", Val.str "X")]] (List.cons_ne_nil _ _) rfl⟩

/-- Helper: a candidate whose column is absent falls through. -/
theorem kpiCandidateDirect_no_col {key : String} {cols : List String} {row : Py.Dict}
    (h : cols.contains key = false) :
    kpiCandidateDirect key cols row = Except.ok Option.none := by
  unfold kpiCandidateDirect
  rw [h]
  rfl

theorem kpiCandidateNested_no_col {key : String} {parse : String → Option Val}
    {cols : List String} {row : Py.Dict} (h : cols.contains key = false) :
    kpiCandidateNested key parse cols row = Except.ok Option.none := by
  unfold kpiCandidateNested
  rw [h]
  rfl

/-- Helper: a candidate whose cell is missing/na falls through. -/
theorem kpiCandidateDirect_na {key : String} {cols : List String} {row : Py.Dict}
    (h : dget row key = Val.none) :
    kpiCandidateDirect key cols row = Except.ok Option.none := by
  unfold kpiCandidateDirect
  by_cases hc : cols.contains key
  · rw [if_pos hc]
    simp only [h]
    rfl
  · rw [if_neg hc]

theorem kpiCandidateNested_na {key : String} {parse : String → Option Val}
    {cols : List String} {row : Py.Dict} (h : dget row key = Val.none) :
    kpiCandidateNested key parse cols row = Except.ok Option.none := by
  unfold kpiCandidateNested
  by_cases hc : cols.contains key
  · rw [if_pos hc]
    simp only [h]
    rfl
  · rw [if_neg hc]

/-- Helper: a direct candidate over a dict-valued cell (even the empty dict)
is used. -/
theorem kpiCandidateDirect_dict {key : String} {cols : List String} {row : Py.Dict}
    {kd : List (String × Val)} (hc : cols.contains key = true) (hk : dget row key = Val.dict kd) :
    kpiCandidateDirect key cols row = (extractKpiRows row (Val.dict kd)).map some := by
  unfold kpiCandidateDirect
  rw [if_pos hc]
  simp only [hk]
  rfl

/-- Helper: a nested candidate over a dict container whose `kpi` entry is a
non-empty dict is used. -/
theorem kpiCandidateNested_dict {key : String} {parse : String → Option Val}
    {cols : List String} {row : Py.Dict} {cd kd : List (String × Val)}
    (hc : cols.contains key = true) (hcd : dget row key = Val.dict cd)
    (hkd : dlookup "kpi" cd = some (Val.dict kd)) (hne : kd ≠ []) :
    kpiCandidateNested key parse cols row = (extractKpiRows row (Val.dict kd)).map some := by
  have hkne : kd.isEmpty = false := by
    cases kd with
    | nil => exact absurd rfl hne
    | cons p ps => rfl
  unfold kpiCandidateNested
  rw [if_pos hc]
  simp only [hcd, hkd]
  show (if truthy (Val.dict kd) && isDictB (Val.dict kd) then (extractKpiRows row (Val.dict kd)).map some
        else Except.ok Option.none) = _
  simp only [truthy, isDictB, hkne, Bool.not_false, Bool.and_self, if_true]

/-- Helper: once a candidate is used, the whole chain returns its extraction
result (rows or raise). -/
theorem orCand_used {x : Except Unit (List Py.Dict)}
    {next : Unit → Except Unit (Option (List Py.Dict))} :
    (match orCand (x.map some) next with
      | Except.error e => Except.error e
      | Except.ok (some rows) => Except.ok rows
      | Except.ok Option.none => (Except.ok [] : Except Unit (List Py.Dict))) = x := by
  cases x with
  | error u => cases u; rfl
  | ok rows => rfl

theorem orCand_skip {next : Unit → Except Unit (Option (List Py.Dict))} :
    orCand (Except.ok Option.none) next = next () := rfl

/-- C6 counterexample: a record whose top-level `kpi` is the *empty* dict and
whose `computed.kpi` holds a non-empty year mapping contributes 0 rows — the
first candidate resolves to an empty mapping yet stops the chain; deleting
the `kpi` key makes the same record yield the candidate-2 row. The claim
("use the first candidate that resolves to a non-empty mapping") predicts 1
row in both cases. -/
theorem kpi_chain_counterexample :
    kpiChunkRows (fun _ => Option.none)
        [[("socialName", Val.str "A"), ("kpi", Val.dict []),
          ("computed.kpi", Val.dict [("2022", Val.dict [("a", Val.int 1)])])]] = Except.ok [] ∧
    kpiChunkRows (fun _ => Option.none)
        [[("socialName", Val.str "A"),
          ("computed.kpi", Val.dict [("2022", Val.dict [("a", Val.int 1)])])]] =
      Except.ok [[("company_name", Val.str "A"), ("siren", Val.str ""), ("siret", Val.str ""),
        ("year", Val.str "2022"), ("a", Val.int 1)]] :=
  ⟨rfl, rfl⟩

/-- C6 amended: the candidate chain tries the five locations in the stated
fixed order and stops at the first *applicable* one, but applicability
differs from the claim: the direct candidates (top-level `kpi`, flattened
`computed.kpi`, flattened `v1legacy.kpi`) accept any dict value — including
the empty dict, which then contributes zero rows while still stopping the
chain — whereas the nested candidates (inside `computed`/`v1legacy`) require
a non-empty `kpi` mapping; a record failing at all five candidates
contributes zero rows. -/
theorem kpi_candidate_chain_amended :
    (∀ (parse : String → Option Val) (cols : List String) (row : Py.Dict)
        (kd : List (String × Val)),
        cols.contains "kpi" = true → dget row "kpi" = Val.dict kd →
        kpiRowsForRecord parse cols row = extractKpiRows row (Val.dict kd)) ∧
    (∀ (parse : String → Option Val) (cols : List String) (row : Py.Dict)
        (cd kd : List (String × Val)),
        (cols.contains "kpi" = false ∨ dget row "kpi" = Val.none) →
        (cols.contains "computed.kpi" = false ∨ dget row "computed.kpi" = Val.none) →
        cols.contains "computed" = true → dget row "computed" = Val.dict cd →
        dlookup "kpi" cd = some (Val.dict kd) → kd ≠ [] →
        kpiRowsForRecord parse cols row = extractKpiRows row (Val.dict kd)) ∧
    (∀ (parse : String → Option Val) (cols : List String) (row : Py.Dict),
        (∀ k ∈ ["kpi", "computed.kpi", "computed", "v1legacy.kpi", "v1legacy"],
          dget row k = Val.none) →
        kpiRowsForRecord parse cols row = Except.ok []) := by
  refine ⟨?_, ?_, ?_⟩
  · intro parse cols row kd hc hk
    unfold kpiRowsForRecord
    rw [kpiCandidateDirect_dict hc hk]
    exact orCand_used
  · intro parse cols row cd kd h1 h2 hc hcd hkd hne
    have hc1 : kpiCandidateDirect "kpi" cols row = Except.ok Option.none := by
      rcases h1 with h | h
      · exact kpiCandidateDirect_no_col h
      · exact kpiCandidateDirect_na h
    have hc2 : kpiCandidateDirect "computed.kpi" cols row = Except.ok Option.none := by
      rcases h2 with h | h
      · exact kpiCandidateDirect_no_col h
      · exact kpiCandidateDirect_na h
    unfold kpiRowsForRecord
    rw [hc1, hc2, kpiCandidateNested_dict hc hcd hkd hne, orCand_skip, orCand_skip]
    exact orCand_used
  · intro parse cols row h
    have h1 := @kpiCandidateDirect_na "kpi" cols row (h "kpi" (by simp))
    have h2 := @kpiCandidateDirect_na "computed.kpi" cols row (h "computed.kpi" (by simp))
    have h3 := @kpiCandidateNested_na "computed" parse cols row (h "computed" (by simp))
    have h4 := @kpiCandidateDirect_na "v1legacy.kpi" cols row (h "v1legacy.kpi" (by simp))
    have h5 := @kpiCandidateNested_na "v1legacy" parse cols row (h "v1legacy" (by simp))
    unfold kpiRowsForRecord
    rw [h1, h2, h3, h4, h5]
    rfl

/-- Witness for C6's amended theorem: part (1) at the counterexample record
(empty `kpi` dict stops the chain), part (3) at a record carrying none of the
five keys. -/
theorem kpi_candidate_chain_amended_witness :
    kpiRowsForRecord (fun _ => Option.none)
        (chunkCols [[("socialName", Val.str "A"), ("kpi", Val.dict []),
          ("computed.kpi", Val.dict [("2022", Val.dict [("a", Val.int 1)])])]])
        [("socialName", Val.str "A"), ("kpi", Val.dict []),
          ("computed.kpi", Val.dict [("2022", Val.dict [("a", Val.int 1)])])] =
      extractKpiRows [("socialName", Val.str "A"), ("kpi", Val.dict []),
          ("computed.kpi", Val.dict [("2022", Val.dict [("a", Val.int 1)])])] (Val.dict []) ∧
    kpiRowsForRecord (fun _ => Option.none) ["x"] [("x", Val.int 1)] = Except.ok [] :=
  ⟨kpi_candidate_chain_amended.1 (fun _ => Option.none) _ _ [] rfl rfl,
   kpi_candidate_chain_amended.2.2 (fun _ => Option.none) ["x"] [("x", Val.int 1)]
     (by intro k hk; fin_cases hk <;> rfl)⟩

theorem pyStr_str (s : String) : pyStr (Val.str s) = s := rfl

/-- C3 counterexample: the end-to-end scenario of the claim — a company
record ("Acme", "123456789", 12345678901234) with two embedded articles, the
first carrying its own single company reference ("Other") and the second
none — produces THREE `09_articles` rows, not two: the parent identity is
appended to the first article's `companies` list as well, so that article
fans out to 2 rows (own reference + parent), and the total is 3. -/
theorem article_inheritance_counterexample :
    ((forwardedArticleRows [("socialName", Val.str "Acme"), ("siren", Val.str "123456789"),
        ("siret", Val.int 12345678901234),
        ("articles", Val.list [
          Val.dict [("title", Val.str "t1"), ("companies", Val.list [Val.dict
            [("label", Val.str "Other"), ("siren", Val.str "999999999"),
             ("siret", Val.str "99999999900011")]])],
          Val.dict [("title", Val.str "t2")]])]).toOption.getD []).map
      (fun r => (dlookup "company_name" r, dlookup "siren" r, dlookup "siret" r)) =
    [(some (Val.str "Other"), some (Val.str "999999999"), some (Val.str "99999999900011")),
     (some (Val.str "Acme"), some (Val.str "123456789"), some (Val.str "12345678901234")),
     (some (Val.str "Acme"), some (Val.str "123456789"), some (Val.str "12345678901234"))] ∧
    ¬ ((forwardedArticleRows [("socialName", Val.str "Acme"), ("siren", Val.str "123456789"),
        ("siret", Val.int 12345678901234),
        ("articles", Val.list [
          Val.dict [("title", Val.str "t1"), ("companies", Val.list [Val.dict
            [("label", Val.str "Other"), ("siren", Val.str "999999999"),
             ("siret", Val.str "99999999900011")]])],
          Val.dict [("title", Val.str "t2")]])]).toOption.getD []).length = 2 :=
  ⟨rfl, by decide⟩

/-- C3 amended: the company extractor appends the record's own identity to
*every* embedded article's `companies` list (deduplicated only when an
identical reference dict is already present), so a record with two embedded
articles — the first carrying one company reference `cd` different from the
parent identity, the second carrying none — yields three `09_articles` rows:
the first article fans out to 2 rows (keyed to `cd`, then to the parent
identity) and the second yields 1 row keyed to the parent identity; the
parent identity is therefore attached always, not only when an article lists
no companies of its own. -/
theorem article_parent_always_appended :
    ∀ (sn sr st t1 t2 cS pS : String) (cd : List (String × Val)),
      pyEq (Val.dict [("label", Val.str sn), ("siren", Val.str sr), ("siret", Val.str st)])
        (Val.dict cd) = false →
      formatSiret (dgetD cd "siret" (Val.str "")) = Except.ok cS →
      formatSiret (Val.str st) = Except.ok pS →
      ∃ rows, forwardedArticleRows
          [("socialName", Val.str sn), ("siren", Val.str sr), ("siret", Val.str st),
           ("articles", Val.list
             [Val.dict [("title", Val.str t1), ("companies", Val.list [Val.dict cd])],
              Val.dict [("title", Val.str t2)]])] = Except.ok rows ∧
        rows.length = 3 ∧
        rows.map (fun r => dlookup "company_name" r) =
          [some (dgetD cd "label" (Val.str "")), some (Val.str sn), some (Val.str sn)] ∧
        rows.map (fun r => dlookup "siren" r) =
          [some (Val.str (pyStr (dgetD cd "siren" (Val.str "")))), some (Val.str sr),
           some (Val.str sr)] ∧
        rows.map (fun r => dlookup "siret" r) =
          [some (Val.str cS), some (Val.str pS), some (Val.str pS)] := by
  intro sn sr st t1 t2 cS pS cd hne hcs hps
  have hA1 : articleWithCompany
      [("socialName", Val.str sn), ("siren", Val.str sr), ("siret", Val.str st),
       ("articles", Val.list
         [Val.dict [("title", Val.str t1), ("companies", Val.list [Val.dict cd])],
          Val.dict [("title", Val.str t2)]])]
      (Val.dict [("title", Val.str t1), ("companies", Val.list [Val.dict cd])]) =
    Except.ok (some [("title", Val.str t1),
      ("companies", Val.list [Val.dict cd,
        Val.dict [("label", Val.str sn), ("siren", Val.str sr), ("siret", Val.str st)]])]) := by
    simp [articleWithCompany, companyInfoOf, truthy, isDictB, isListB, hasKey, dlookup, dgetD,
      dset, hne]
  have hA2 : articleWithCompany
      [("socialName", Val.str sn), ("siren", Val.str sr), ("siret", Val.str st),
       ("articles", Val.list
         [Val.dict [("title", Val.str t1), ("companies", Val.list [Val.dict cd])],
          Val.dict [("title", Val.str t2)]])]
      (Val.dict [("title", Val.str t2)]) =
    Except.ok (some [("title", Val.str t2),
      ("companies", Val.list
        [Val.dict [("label", Val.str sn), ("siren", Val.str sr), ("siret", Val.str st)]])]) := by
    simp [articleWithCompany, companyInfoOf, truthy, isDictB, isListB, hasKey, dlookup, dgetD, dset]
  refine ⟨[createArticleRow [("title", Val.str t1),
        ("companies", Val.list [Val.dict cd,
          Val.dict [("label", Val.str sn), ("siren", Val.str sr), ("siret", Val.str st)]])]
       [("company_name", dgetD cd "label" (Val.str "")),
        ("siren", Val.str (pyStr (dgetD cd "siren" (Val.str "")))),
        ("siret", Val.str cS)],
     createArticleRow [("title", Val.str t1),
        ("companies", Val.list [Val.dict cd,
          Val.dict [("label", Val.str sn), ("siren", Val.str sr), ("siret", Val.str st)]])]
       [("company_name", Val.str sn), ("siren", Val.str sr), ("siret", Val.str pS)],
     createArticleRow [("title", Val.str t2),
        ("companies", Val.list
          [Val.dict [("label", Val.str sn), ("siren", Val.str sr), ("siret", Val.str st)]])]
       [("company_name", Val.str sn), ("siren", Val.str sr), ("siret", Val.str pS)]],
    ?_, rfl, rfl, rfl, rfl⟩
  simp only [dgetD] at hcs
  unfold forwardedArticleRows articlesRecordsForRecord
  simp [hasKey, dlookup, dget, dgetD, truthy, articlesFromData, filterMapME, hA1, hA2,
    articleExtractChunk, mapME, articleRowsForRow, resolvedArticleCompanies,
    outerSafeGetList, articleBaseIndex, isNa, hcs, hps]
  simp [bindE_ok, Except.map, mapME, articleRowsForRow, resolvedArticleCompanies,
    outerSafeGetList, dget, dlookup, articleBaseIndex, dgetD, isNa, hcs, hps, pyStr_str]

/-- Witness for C3's amended theorem at the claim's own concrete scenario
(parent "Acme"/"123456789"/"12345678901234", own reference "Other"). -/
theorem article_parent_always_appended_witness :
    ∃ rows, forwardedArticleRows
        [("socialName", Val.str "Acme"), ("siren", Val.str "123456789"),
         ("siret", Val.str "12345678901234"),
         ("articles", Val.list
           [Val.dict [("title", Val.str "t1"), ("companies", Val.list [Val.dict
             [("label", Val.str "Other"), ("siren", Val.str "999999999"),
              ("siret", Val.str "99999999900011")]])],
            Val.dict [("title", Val.str "t2")]])] = Except.ok rows ∧
      rows.length = 3 ∧
      rows.map (fun r => dlookup "company_name" r) =
        [some (dgetD [("label", Val.str "Other"), ("siren", Val.str "999999999"),
            ("siret", Val.str "99999999900011")] "label" (Val.str "")),
         some (Val.str "Acme"), some (Val.str "Acme")] ∧
      rows.map (fun r => dlookup "siren" r) =
        [some (Val.str (pyStr (dgetD [("label", Val.str "Other"), ("siren", Val.str "999999999"),
            ("siret", Val.str "99999999900011")] "siren" (Val.str "")))),
         some (Val.str "123456789"), some (Val.str "123456789")] ∧
      rows.map (fun r => dlookup "siret" r) =
        [some (Val.str "99999999900011"), some (Val.str "12345678901234"),
         some (Val.str "12345678901234")] :=
  article_parent_always_appended "Acme" "123456789" "12345678901234" "t1" "t2"
    "99999999900011" "12345678901234"
    [("label", Val.str "Other"), ("siren", Val.str "999999999"), ("siret", Val.str "99999999900011")]
    rfl rfl rfl

/-! ### Helpers for the identity-key completeness claim -/

theorem isNa_false_ne_none {v : Val} (h : isNa v = false) : v ≠ Val.none := by
  intro he
  subst he
  cases h

theorem fillnaStr_ne_none (v : Val) : fillnaStr v ≠ Val.none := by
  unfold fillnaStr fillnaWith
  by_cases h : isNa v
  · rw [if_pos h]
    intro he
    cases he
  · rw [if_neg h]
    exact isNa_false_ne_none (by simpa using h)

theorem createArticleRow_identity (row : Py.Dict) (a b c : Val) :
    dlookup "company_name" (createArticleRow row [("company_name", a), ("siren", b), ("siret", c)]) = some a ∧
    dlookup "siren" (createArticleRow row [("company_name", a), ("siren", b), ("siret", c)]) = some b ∧
    dlookup "siret" (createArticleRow row [("company_name", a), ("siren", b), ("siret", c)]) = some c :=
  ⟨rfl, rfl, rfl⟩

theorem createSignalRow_identity (row : Py.Dict) (a b c : Val) :
    dlookup "company_name" (createSignalRow row [("company_name", a), ("siren", b), ("siret", c)]) = some a ∧
    dlookup "siren" (createSignalRow row [("company_name", a), ("siren", b), ("siret", c)]) = some b ∧
    dlookup "siret" (createSignalRow row [("company_name", a), ("siren", b), ("siret", c)]) = some c :=
  ⟨rfl, rfl, rfl⟩

theorem articleBaseIndex_shape {c : Val} {d : Py.Dict} (h : articleBaseIndex c = Except.ok d) :
    d = emptyBase ∨
      ∃ dd s t, c = Val.dict dd ∧
        d = [("company_name", dgetD dd "label" (Val.str "")),
             ("siren", Val.str s), ("siret", Val.str t)] := by
  cases c with
  | dict dd =>
      simp only [articleBaseIndex] at h
      cases hf : formatSiret (dgetD dd "siret" (Val.str "")) with
      | error u => cases u; rw [hf, bindE_error] at h; cases h
      | ok t =>
          rw [hf, bindE_ok] at h
          injection h with h
          exact Or.inr ⟨dd, _, t, rfl, h.symm⟩
  | none => exact Or.inl (by injection h with h; exact h.symm)
  | str s => exact Or.inl (by injection h with h; exact h.symm)
  | int n => exact Or.inl (by injection h with h; exact h.symm)
  | bool b => exact Or.inl (by injection h with h; exact h.symm)
  | list l => exact Or.inl (by injection h with h; exact h.symm)

theorem mem_zipWith_exists {α β γ : Type} {f : α → β → γ} :
    ∀ {l₁ : List α} {l₂ : List β} {c : γ}, c ∈ List.zipWith f l₁ l₂ →
      ∃ a b, a ∈ l₁ ∧ b ∈ l₂ ∧ c = f a b := by
  intro l₁
  induction l₁ with
  | nil => intro l₂ c hc; cases hc
  | cons a l ih =>
      intro l₂ c hc
      cases l₂ with
      | nil => cases hc
      | cons b l₂' =>
          rcases List.mem_cons.mp hc with hc | hc
          · exact ⟨a, b, by simp, by simp, hc⟩
          · obtain ⟨a', b', ha', hb', hc'⟩ := ih hc
            exact ⟨a', b', by simp [ha'], by simp [hb'], hc'⟩

theorem dlookup_cons (k : String) (q : String × Val) (d : Py.Dict) :
    dlookup k (q :: d) = if q.1 = k then some q.2 else dlookup k d := by
  rcases q with ⟨k', v⟩
  rfl

theorem dlookup_map_set_ne {k k' : String} {v : Val} (h : k ≠ k') :
    ∀ d : Py.Dict,
      dlookup k (d.map (fun p => if p.1 = k' then (k', v) else p)) = dlookup k d := by
  intro d
  induction d with
  | nil => rfl
  | cons p ps ih =>
      simp only [List.map_cons]
      rw [dlookup_cons, dlookup_cons]
      by_cases hp : p.1 = k'
      · rw [if_pos hp]
        show (if k' = k then _ else _) = _
        rw [if_neg (fun he => h he.symm), if_neg (fun he : p.1 = k => h (he ▸ hp ▸ rfl)), ih]
      · rw [if_neg hp, ih]

theorem dlookup_append_right_ne {k k' : String} {v : Val} (h : k ≠ k') :
    ∀ d : Py.Dict, dlookup k (d ++ [(k', v)]) = dlookup k d := by
  intro d
  induction d with
  | nil =>
      show dlookup k [(k', v)] = dlookup k []
      rw [dlookup_cons]
      rw [if_neg (fun he : k' = k => h he.symm)]
  | cons p ps ih =>
      rw [List.cons_append, dlookup_cons, dlookup_cons]
      by_cases hpk : p.1 = k
      · rw [if_pos hpk, if_pos hpk]
      · rw [if_neg hpk, if_neg hpk, ih]

theorem dlookup_dset_ne {d : Py.Dict} {k k' : String} {v : Val} (h : k ≠ k') :
    dlookup k (dset d k' v) = dlookup k d := by
  unfold dset
  by_cases hk : hasKey d k'
  · rw [if_pos hk]
    exact dlookup_map_set_ne h d
  · rw [if_neg hk]
    exact dlookup_append_right_ne h d

theorem dlookup_dupdate_clean {u : Py.Dict} {k : String} (h : ∀ q ∈ u, q.1 ≠ k) :
    ∀ d : Py.Dict, dlookup k (dupdate d u) = dlookup k d := by
  induction u with
  | nil => intro d; rfl
  | cons q u' ih =>
      intro d
      show dlookup k (dupdate (dset d q.1 q.2) u') = _
      rw [ih (fun q' hq' => h q' (by simp [hq'])) (dset d q.1 q.2)]
      exact dlookup_dset_ne (fun he => h q (by simp) he.symm)

theorem dlookup_map_set_self {k : String} {v : Val} :
    ∀ d : Py.Dict, (dlookup k d).isSome = true →
      dlookup k (d.map (fun p => if p.1 = k then (k, v) else p)) = some v := by
  intro d
  induction d with
  | nil => intro h; cases h
  | cons p ps ih =>
      intro h
      simp only [List.map_cons]
      by_cases hp : p.1 = k
      · rw [if_pos hp, dlookup_cons]
        show (if k = k then some v else _) = some v
        rw [if_pos rfl]
      · rw [if_neg hp, dlookup_cons, if_neg hp]
        apply ih
        rw [dlookup_cons, if_neg hp] at h
        exact h

theorem dlookup_append_left {k : String} :
    ∀ (d e : Py.Dict), (dlookup k d).isSome = true → dlookup k (d ++ e) = dlookup k d := by
  intro d e
  induction d with
  | nil => intro h; cases h
  | cons p ps ih =>
      intro h
      rw [List.cons_append, dlookup_cons, dlookup_cons]
      by_cases hpk : p.1 = k
      · rw [if_pos hpk, if_pos hpk]
      · rw [if_neg hpk, if_neg hpk]
        apply ih
        rw [dlookup_cons, if_neg hpk] at h
        exact h

theorem dlookup_isSome_dset {d : Py.Dict} {k k' : String} {v : Val}
    (h : (dlookup k d).isSome = true) : (dlookup k (dset d k' v)).isSome = true := by
  by_cases hkk : k = k'
  · subst hkk
    unfold dset
    have hk : hasKey d k = true := h
    rw [if_pos hk, dlookup_map_set_self d h]
    rfl
  · rw [dlookup_dset_ne hkk]
    exact h

theorem dupdate_preserves_isSome {k : String} :
    ∀ (u d : Py.Dict), (dlookup k d).isSome = true →
      (dlookup k (dupdate d u)).isSome = true := by
  intro u
  induction u with
  | nil => intro d h; exact h
  | cons q u' ih =>
      intro d h
      show (dlookup k (dupdate (dset d q.1 q.2) u')).isSome = true
      exact ih (dset d q.1 q.2) (dlookup_isSome_dset h)

theorem kpiFold_mem {base : Py.Dict} :
    ∀ (kd : List (String × Val)) (acc : List Py.Dict) (r : Py.Dict),
      r ∈ kd.foldl (fun acc p =>
          match p.2 with
          | Val.dict yk => acc ++ [dupdate (base ++ [("year", Val.str p.1)]) yk]
          | _ => acc) acc →
      r ∈ acc ∨ ∃ p ∈ kd, ∃ yk, p.2 = Val.dict yk ∧
        r = dupdate (base ++ [("year", Val.str p.1)]) yk := by
  intro kd
  induction kd with
  | nil => intro acc r hr; exact Or.inl hr
  | cons p kd' ih =>
      intro acc r hr
      simp only [List.foldl_cons] at hr
      cases hp2 : p.2 with
      | dict yk =>
          rw [hp2] at hr
          rcases ih _ r hr with hacc | ⟨p', hp', yk', h1, h2⟩
          · rcases List.mem_append.mp hacc with h | h
            · exact Or.inl h
            · rcases List.mem_singleton.mp h with rfl
              exact Or.inr ⟨p, by simp, yk, hp2, rfl⟩
          · exact Or.inr ⟨p', by simp [hp'], yk', h1, h2⟩
      | none => rw [hp2] at hr; rcases ih _ r hr with h | ⟨p', hp', rest⟩
                · exact Or.inl h
                · exact Or.inr ⟨p', by simp [hp'], rest⟩
      | str s => rw [hp2] at hr; rcases ih _ r hr with h | ⟨p', hp', rest⟩
                 · exact Or.inl h
                 · exact Or.inr ⟨p', by simp [hp'], rest⟩
      | int n => rw [hp2] at hr; rcases ih _ r hr with h | ⟨p', hp', rest⟩
                 · exact Or.inl h
                 · exact Or.inr ⟨p', by simp [hp'], rest⟩
      | bool b => rw [hp2] at hr; rcases ih _ r hr with h | ⟨p', hp', rest⟩
                  · exact Or.inl h
                  · exact Or.inr ⟨p', by simp [hp'], rest⟩
      | list l => rw [hp2] at hr; rcases ih _ r hr with h | ⟨p', hp', rest⟩
                  · exact Or.inl h
                  · exact Or.inr ⟨p', by simp [hp'], rest⟩

theorem kpiBase_shape {row : Py.Dict} {base : Py.Dict} (h : kpiBase row = Except.ok base) :
    ∃ a b c, base = [("company_name", Val.str a), ("siren", Val.str b), ("siret", Val.str c)] := by
  unfold kpiBase at h
  cases h1 : notnaE (dget row "socialName") with
  | error u => cases u; rw [h1, bindE_error] at h; cases h
  | ok bsn =>
      rw [h1, bindE_ok] at h
      cases h2 : notnaE (dget row "siren") with
      | error u => cases u; rw [h2, bindE_error] at h; cases h
      | ok bsr =>
          rw [h2, bindE_ok] at h
          cases h3 : notnaE (dget row "siret") with
          | error u => cases u; rw [h3, bindE_error] at h; cases h
          | ok bst =>
              rw [h3, bindE_ok] at h
              by_cases hbst : bst = true
              · rw [if_pos hbst] at h
                cases hf : formatSiret (dgetD row "siret" (Val.str "")) with
                | error u =>
                    cases u
                    rw [hf] at h
                    have h' : (Except.error () : Except Unit Py.Dict) = Except.ok base := h
                    cases h'
                | ok t =>
                    rw [hf] at h
                    have h' : Except.ok
                        [("company_name", Val.str (if bsn then pyStr (dgetD row "socialName" (Val.str "")) else "")),
                         ("siren", Val.str (if bsr then pyStr (dgetD row "siren" (Val.str "")) else "")),
                         ("siret", Val.str t)] = Except.ok base := h
                    injection h' with h'
                    exact ⟨_, _, t, h'.symm⟩
              · rw [if_neg hbst] at h
                have h' : Except.ok
                    [("company_name", Val.str (if bsn then pyStr (dgetD row "socialName" (Val.str "")) else "")),
                     ("siren", Val.str (if bsr then pyStr (dgetD row "siren" (Val.str "")) else "")),
                     ("siret", Val.str "")] = Except.ok base := h
                injection h' with h'
                exact ⟨_, _, "", h'.symm⟩

theorem mapSome_ok {x : Except Unit (List Py.Dict)} {rows : List Py.Dict}
    (h : x.map some = Except.ok (some rows)) : x = Except.ok rows := by
  cases x with
  | error u => cases h
  | ok rs =>
      injection h with h
      injection h with h
      rw [h]

theorem kpiCandidateDirect_some {key : String} {cols : List String} {row : Py.Dict}
    {rows : List Py.Dict} (h : kpiCandidateDirect key cols row = Except.ok (some rows)) :
    ∃ v, extractKpiRows row v = Except.ok rows := by
  unfold kpiCandidateDirect at h
  by_cases hc : cols.contains key
  · rw [if_pos hc] at h
    cases hn : notnaTruth (dget row key) with
    | none => simp only [hn] at h; cases h
    | some b =>
        simp only [hn] at h
        by_cases hb : (b && isDictB (dget row key)) = true
        · rw [if_pos hb] at h
          exact ⟨dget row key, mapSome_ok h⟩
        · rw [if_neg hb] at h
          injection h with h
          cases h
  · rw [if_neg hc] at h
    injection h with h
    cases h

theorem kpiCandidateNested_some {key : String} {parse : String → Option Val}
    {cols : List String} {row : Py.Dict} {rows : List Py.Dict}
    (h : kpiCandidateNested key parse cols row = Except.ok (some rows)) :
    ∃ v, extractKpiRows row v = Except.ok rows := by
  unfold kpiCandidateNested at h
  by_cases hc : cols.contains key
  · rw [if_pos hc] at h
    cases hn : notnaTruth (dget row key) with
    | none => simp only [hn] at h; cases h
    | some b =>
        simp only [hn] at h
        by_cases hb : b = true
        · rw [if_pos hb] at h
          cases hg : dget row key with
          | dict cd =>
              rw [hg] at h
              have h' : (if (truthy ((dlookup "kpi" cd).getD Val.none) &&
                    isDictB ((dlookup "kpi" cd).getD Val.none)) = true
                  then (extractKpiRows row ((dlookup "kpi" cd).getD Val.none)).map some
                  else Except.ok Option.none) = Except.ok (some rows) := h
              by_cases hk : (truthy ((dlookup "kpi" cd).getD Val.none) &&
                  isDictB ((dlookup "kpi" cd).getD Val.none)) = true
              · rw [if_pos hk] at h'
                exact ⟨(dlookup "kpi" cd).getD Val.none, mapSome_ok h'⟩
              · rw [if_neg hk] at h'
                injection h' with h'
                cases h'
          | str s =>
              rw [hg] at h
              have h' : (if (!(s = "" : Bool)) = true then
                    (match parse s with
                      | some (Val.dict pDict) =>
                          if (truthy ((dlookup "kpi" pDict).getD Val.none) &&
                              isDictB ((dlookup "kpi" pDict).getD Val.none)) = true
                          then (extractKpiRows row ((dlookup "kpi" pDict).getD Val.none)).map some
                          else Except.ok Option.none
                      | _ => Except.ok Option.none)
                  else Except.ok Option.none) = Except.ok (some rows) := h
              by_cases hs : (!(s = "" : Bool)) = true
              · rw [if_pos hs] at h'
                cases hp : parse s with
                | none => rw [hp] at h'; injection h' with h'; cases h'
                | some pv =>
                    rw [hp] at h'
                    cases pv with
                    | dict pDict =>
                        have hpd : (if (truthy ((dlookup "kpi" pDict).getD Val.none) &&
                              isDictB ((dlookup "kpi" pDict).getD Val.none)) = true
                            then (extractKpiRows row ((dlookup "kpi" pDict).getD Val.none)).map some
                            else Except.ok Option.none) = Except.ok (some rows) := h'
                        by_cases hk : (truthy ((dlookup "kpi" pDict).getD Val.none) &&
                            isDictB ((dlookup "kpi" pDict).getD Val.none)) = true
                        · rw [if_pos hk] at hpd
                          exact ⟨(dlookup "kpi" pDict).getD Val.none, mapSome_ok hpd⟩
                        · rw [if_neg hk] at hpd
                          injection hpd with hpd
                          cases hpd
                    | none =>
                        have hpd : (Except.ok Option.none :
                            Except Unit (Option (List Py.Dict))) = Except.ok (some rows) := h'
                        injection hpd with hpd
                        cases hpd
                    | str t =>
                        have hpd : (Except.ok Option.none :
                            Except Unit (Option (List Py.Dict))) = Except.ok (some rows) := h'
                        injection hpd with hpd
                        cases hpd
                    | int n =>
                        have hpd : (Except.ok Option.none :
                            Except Unit (Option (List Py.Dict))) = Except.ok (some rows) := h'
                        injection hpd with hpd
                        cases hpd
                    | bool bb =>
                        have hpd : (Except.ok Option.none :
                            Except Unit (Option (List Py.Dict))) = Except.ok (some rows) := h'
                        injection hpd with hpd
                        cases hpd
                    | list l =>
                        have hpd : (Except.ok Option.none :
                            Except Unit (Option (List Py.Dict))) = Except.ok (some rows) := h'
                        injection hpd with hpd
                        cases hpd
              · rw [if_neg hs] at h'
                injection h' with h'
                cases h'
          | none => rw [hg] at h; injection h with h; cases h
          | int n => rw [hg] at h; injection h with h; cases h
          | bool bb => rw [hg] at h; injection h with h; cases h
          | list l => rw [hg] at h; injection h with h; cases h
        · rw [if_neg hb] at h
          injection h with h
          cases h
  · rw [if_neg hc] at h
    injection h with h
    cases h

theorem orCand_eq_some {x : Except Unit (Option (List Py.Dict))}
    {next : Unit → Except Unit (Option (List Py.Dict))} {rows : List Py.Dict}
    (h : orCand x next = Except.ok (some rows)) :
    x = Except.ok (some rows) ∨ (x = Except.ok Option.none ∧ next () = Except.ok (some rows)) := by
  cases x with
  | error u => cases h
  | ok o =>
      cases o with
      | some rs => exact Or.inl h
      | none => exact Or.inr ⟨rfl, h⟩

theorem kpiRowsForRecord_cases {parse : String → Option Val} {cols : List String}
    {row : Py.Dict} {rows : List Py.Dict}
    (h : kpiRowsForRecord parse cols row = Except.ok rows) :
    rows = [] ∨ ∃ v, extractKpiRows row v = Except.ok rows := by
  unfold kpiRowsForRecord at h
  cases hch : orCand (kpiCandidateDirect "kpi" cols row) (fun _ =>
        orCand (kpiCandidateDirect "computed.kpi" cols row) (fun _ =>
        orCand (kpiCandidateNested "computed" parse cols row) (fun _ =>
        orCand (kpiCandidateDirect "v1legacy.kpi" cols row) (fun _ =>
        kpiCandidateNested "v1legacy" parse cols row)))) with
  | error u => rw [hch] at h; cases h
  | ok o =>
      rw [hch] at h
      cases o with
      | none =>
          injection h with h
          exact Or.inl h.symm
      | some rs =>
          injection h with h
          subst h
          refine Or.inr ?_
          rcases orCand_eq_some hch with h1 | ⟨_, h1⟩
          · exact kpiCandidateDirect_some h1
          rcases orCand_eq_some h1 with h2 | ⟨_, h2⟩
          · exact kpiCandidateDirect_some h2
          rcases orCand_eq_some h2 with h3 | ⟨_, h3⟩
          · exact kpiCandidateNested_some h3
          rcases orCand_eq_some h3 with h4 | ⟨_, h4⟩
          · exact kpiCandidateDirect_some h4
          · exact kpiCandidateNested_some h4

theorem str_ne_none (s : String) : Val.str s ≠ Val.none := fun h => Val.noConfusion h

theorem extractKpiRows_shape {row : Py.Dict} {v : Val} {rows : List Py.Dict}
    (h : extractKpiRows row v = Except.ok rows) :
    ∀ r ∈ rows, ∃ (a b c : String) (year : String) (yk : List (String × Val)),
      (∃ kd, v = Val.dict kd ∧ (year, Val.dict yk) ∈ kd) ∧
      r = dupdate ([("company_name", Val.str a), ("siren", Val.str b), ("siret", Val.str c)] ++
        [("year", Val.str year)]) yk := by
  unfold extractKpiRows at h
  cases hb : notnaE v with
  | error u => cases u; rw [hb, bindE_error] at h; cases h
  | ok b =>
      rw [hb, bindE_ok] at h
      cases v with
      | dict kd =>
          have h' : (if b = true then
                (kpiBase row >>= fun base => Except.ok (kd.foldl (fun acc p =>
                  match p.2 with
                  | Val.dict yk => acc ++ [dupdate (base ++ [("year", Val.str p.1)]) yk]
                  | _ => acc) []))
              else Except.ok []) = Except.ok rows := h
          by_cases hbt : b = true
          · rw [if_pos hbt] at h'
            cases hkb : kpiBase row with
            | error u => cases u; rw [hkb, bindE_error] at h'; cases h'
            | ok base =>
                rw [hkb, bindE_ok] at h'
                injection h' with h'
                intro r hr
                rw [← h'] at hr
                rcases kpiFold_mem kd [] r hr with h0 | ⟨p, hp, yk, hp2, hre⟩
                · cases h0
                · obtain ⟨a, b', c, hbsh⟩ := kpiBase_shape hkb
                  subst hbsh
                  refine ⟨a, b', c, p.1, yk, ⟨kd, rfl, ?_⟩, hre⟩
                  have : p = (p.1, Val.dict yk) := by
                    rcases p with ⟨p1, p2⟩
                    simp only at hp2
                    rw [hp2]
                  rw [← this]
                  exact hp
          · rw [if_neg hbt] at h'
            injection h' with h'
            rw [← h']
            intro r hr
            cases hr
      | none =>
          have h' : (Except.ok [] : Except Unit (List Py.Dict)) = Except.ok rows := h
          injection h' with h'
          rw [← h']
          intro r hr
          cases hr
      | str s =>
          have h' : (Except.ok [] : Except Unit (List Py.Dict)) = Except.ok rows := h
          injection h' with h'
          rw [← h']
          intro r hr
          cases hr
      | int n =>
          have h' : (Except.ok [] : Except Unit (List Py.Dict)) = Except.ok rows := h
          injection h' with h'
          rw [← h']
          intro r hr
          cases hr
      | bool bb =>
          have h' : (Except.ok [] : Except Unit (List Py.Dict)) = Except.ok rows := h
          injection h' with h'
          rw [← h']
          intro r hr
          cases hr
      | list l =>
          have h' : (Except.ok [] : Except Unit (List Py.Dict)) = Except.ok rows := h
          injection h' with h'
          rw [← h']
          intro r hr
          cases hr

/-- C9 counterexample: a KPI year mapping that itself binds `siret` to null
overwrites the identity column after the `kpi_row.update(year_kpis)` merge —
the produced `07_kpi_data` row carries a null `siret`, where the claim
promises non-null values in every row. -/
theorem identity_nonnull_counterexample :
    kpiChunkRows (fun _ => Option.none)
        [[("socialName", Val.str "A"), ("siren", Val.str "123"),
          ("kpi", Val.dict [("2022", Val.dict [("siret", Val.none)])])]] =
      Except.ok [[("company_name", Val.str "A"), ("siren", Val.str "123"),
        ("siret", Val.none), ("year", Val.str "2022")]] ∧
    dlookup "siret" [("company_name", Val.str "A"), ("siren", Val.str "123"),
        ("siret", Val.none), ("year", Val.str "2022")] = some Val.none :=
  ⟨rfl, rfl⟩

/-- C9 amended: every Output Row of the nine tables carries the three
identity columns (never absent), and their values are non-null strings,
except that (i) in `09_articles` the `company_name` takes the reference's raw
`label` value, which is null for a reference binding `label` to an explicit
null — excluded here by the `labelNotNull` hypothesis — and (ii) in
`07_kpi_data` a year's metrics mapping that itself binds an identity column
name overwrites that identity value after the merge — excluded by the
`kpiMapClean` hypothesis, under which non-nullness holds; column *presence*
in KPI rows holds unconditionally. -/
theorem identity_key_completeness_amended :
    (∀ (row : Py.Dict) (rows : List Py.Dict), articleRowsForRow row = Except.ok rows →
        (∀ cs, resolvedArticleCompanies row = some cs → ∀ c ∈ cs, labelNotNull c) →
        ∀ r ∈ rows, identityPresent r ∧ identityNonNull r) ∧
    (∀ (row : Py.Dict) (rows : List Py.Dict), signalRowsForRow row = Except.ok rows →
        ∀ r ∈ rows, identityPresent r ∧ identityNonNull r) ∧
    (∀ (chunk : List Py.Dict) (rows : List Py.Dict),
        (basicInfoRows chunk = Except.ok rows ∨ financialRows chunk = Except.ok rows ∨
         workforceRows chunk = Except.ok rows ∨ structureRows chunk = Except.ok rows ∨
         flagsRows chunk = Except.ok rows ∨ contactsRows chunk = Except.ok rows) →
        ∀ r ∈ rows, identityPresent r ∧ identityNonNull r) ∧
    (∀ (parse : String → Option Val) (cols : List String) (row : Py.Dict)
        (rows : List Py.Dict),
        kpiRowsForRecord parse cols row = Except.ok rows →
        ∀ r ∈ rows, identityPresent r) ∧
    (∀ (row : Py.Dict) (kd : List (String × Val)) (rows : List Py.Dict),
        extractKpiRows row (Val.dict kd) = Except.ok rows → kpiMapClean kd →
        ∀ r ∈ rows, identityPresent r ∧ identityNonNull r) := by
  refine ⟨?_, ?_, ?_, ?_, ?_⟩
  · -- 09_articles
    intro row rows h hlab r hr
    unfold articleRowsForRow at h
    cases hres : resolvedArticleCompanies row with
    | none =>
        rw [hres] at h
        injection h with h
        rw [← h] at hr
        rcases List.mem_singleton.mp hr with rfl
        exact ⟨⟨rfl, rfl, rfl⟩,
          ⟨Val.str "", rfl, str_ne_none ""⟩, ⟨Val.str "", rfl, str_ne_none ""⟩,
          ⟨Val.str "", rfl, str_ne_none ""⟩⟩
    | some cs =>
        rw [hres] at h
        refine mapME_forall_mem _ (fun b => identityPresent b ∧ identityNonNull b)
          cs rows h ?_ r hr
        intro c hcmem b hb
        cases hab : articleBaseIndex c with
        | error u => cases u; rw [hab] at hb; cases hb
        | ok base =>
            rw [hab] at hb
            injection hb with hb
            rcases articleBaseIndex_shape hab with hb1 | ⟨dd, s, t, hcdd, hb1⟩
            · rw [hb1] at hb
              rw [← hb]
              exact ⟨⟨rfl, rfl, rfl⟩,
                ⟨Val.str "", rfl, str_ne_none ""⟩, ⟨Val.str "", rfl, str_ne_none ""⟩,
                ⟨Val.str "", rfl, str_ne_none ""⟩⟩
            · rw [hb1] at hb
              rw [← hb]
              have hlabel : dgetD dd "label" (Val.str "") ≠ Val.none :=
                hlab cs hres c hcmem dd hcdd
              exact ⟨⟨rfl, rfl, rfl⟩,
                ⟨_, rfl, hlabel⟩, ⟨Val.str s, rfl, str_ne_none s⟩,
                ⟨Val.str t, rfl, str_ne_none t⟩⟩
  · -- 08_signals
    intro row rows h r hr
    have key : ∀ (s₁ s₂ s₃ : String),
        r = createSignalRow row [("company_name", Val.str s₁), ("siren", Val.str s₂),
          ("siret", Val.str s₃)] →
        identityPresent r ∧ identityNonNull r := by
      intro s₁ s₂ s₃ hre
      subst hre
      exact ⟨⟨rfl, rfl, rfl⟩,
        ⟨Val.str s₁, rfl, str_ne_none s₁⟩, ⟨Val.str s₂, rfl, str_ne_none s₂⟩,
        ⟨Val.str s₃, rfl, str_ne_none s₃⟩⟩
    unfold signalRowsForRow at h
    by_cases hif : (((resolvedSignalCompanies row).getD []).isEmpty &&
        ((outerSafeGetList (dget row "sirets")).getD []).isEmpty) = true
    · rw [if_pos hif] at h
      injection h with h
      rw [← h] at hr
      rcases List.mem_singleton.mp hr with hre
      exact key "" "" "" hre
    · rw [if_neg hif] at h
      cases hm : mapME (fun s => (signalSiretBase s).map (createSignalRow row))
          ((outerSafeGetList (dget row "sirets")).getD []) with
      | error u => cases u; rw [hm, bindE_error] at h; cases h
      | ok siretRows =>
          rw [hm, bindE_ok] at h
          injection h with h
          rw [← h] at hr
          rcases List.mem_append.mp hr with hc | hs
          · obtain ⟨c, _, hre⟩ := List.mem_map.mp hc
            obtain ⟨s, hsh⟩ := signalCompanyBase_shape c
            exact key "" s "" (by rw [← hre, hsh])
          · obtain ⟨s, _, hb⟩ := mapME_mem_exists _ _ siretRows hm r hs
            cases hsb : signalSiretBase s with
            | error u => cases u; rw [hsb] at hb; cases hb
            | ok d =>
                rw [hsb] at hb
                injection hb with hb
                obtain ⟨a, e, hsh⟩ := signalSiretBase_shape hsb
                exact key "" a e (by rw [← hb, hsh])
  · -- the six per-company tables
    intro chunk rows hdisj
    suffices hgen : ∀ extras : Py.Dict → Except Unit Py.Dict,
        withBase chunk extras = Except.ok rows →
        ∀ r ∈ rows, identityPresent r ∧ identityNonNull r by
      rcases hdisj with h | h | h | h | h | h
      · exact hgen _ h
      · exact hgen _ h
      · exact hgen _ h
      · exact hgen _ h
      · exact hgen _ h
      · exact hgen _ h
    intro extras hw r hr
    unfold withBase at hw
    cases hbase : baseIndexRows chunk with
    | error u => cases u; rw [hbase, bindE_error] at hw; cases hw
    | ok base =>
        rw [hbase, bindE_ok] at hw
        cases hex : mapME extras chunk with
        | error u => cases u; rw [hex, bindE_error] at hw; cases hw
        | ok ex =>
            rw [hex, bindE_ok] at hw
            injection hw with hw
            rw [← hw] at hr
            obtain ⟨p, hp, hr1⟩ := List.mem_map.mp hr
            obtain ⟨hp1, _⟩ := List.of_mem_zip hp
            unfold baseIndexRows at hbase
            cases hsir : mapME formatSiret (safeGetSeries chunk "siret" (Val.str "")) with
            | error u => cases u; rw [hsir, bindE_error] at hbase; cases hbase
            | ok sirets =>
                rw [hsir, bindE_ok] at hbase
                injection hbase with hbase
                rw [← hbase] at hp1
                obtain ⟨n, st, _, _, hb1⟩ := mem_zipWith_exists hp1
                rw [← hr1, hb1]
                exact ⟨⟨rfl, rfl, rfl⟩,
                  ⟨fillnaStr n, rfl, fillnaStr_ne_none n⟩,
                  ⟨Val.str st.1, rfl, str_ne_none st.1⟩,
                  ⟨Val.str st.2, rfl, str_ne_none st.2⟩⟩
  · -- 07_kpi_data: identity columns always present
    intro parse cols row rows h r hr
    rcases kpiRowsForRecord_cases h with rfl | ⟨v, hv⟩
    · cases hr
    · obtain ⟨a, b, c, year, yk, _, hre⟩ := extractKpiRows_shape hv r hr
      subst hre
      refine ⟨?_, ?_, ?_⟩
      · exact dupdate_preserves_isSome yk _ rfl
      · exact dupdate_preserves_isSome yk _ rfl
      · exact dupdate_preserves_isSome yk _ rfl
  · -- 07_kpi_data: non-null under a clean year mapping
    intro row kd rows h hclean r hr
    obtain ⟨a, b, c, year, yk, ⟨kd', hkd', hmem⟩, hre⟩ := extractKpiRows_shape h r hr
    injection hkd' with hkd'
    subst hkd'
    have hq := hclean (year, Val.dict yk) hmem yk rfl
    have hcn : dlookup "company_name" r = some (Val.str a) := by
      rw [hre, dlookup_dupdate_clean (fun q hq' => (hq q hq').1)]
      rfl
    have hsr : dlookup "siren" r = some (Val.str b) := by
      rw [hre, dlookup_dupdate_clean (fun q hq' => (hq q hq').2.1)]
      rfl
    have hst : dlookup "siret" r = some (Val.str c) := by
      rw [hre, dlookup_dupdate_clean (fun q hq' => (hq q hq').2.2)]
      rfl
    exact ⟨⟨by rw [hcn]; rfl, by rw [hsr]; rfl, by rw [hst]; rfl⟩,
      ⟨Val.str a, hcn, str_ne_none a⟩, ⟨Val.str b, hsr, str_ne_none b⟩,
      ⟨Val.str c, hst, str_ne_none c⟩⟩

/-- Witness for C9's amended theorem at concrete inputs: an article row with
no company lists, a signal row with one SIRET, a one-record company chunk
(`01_company_basic_info`), and a KPI record whose year mapping is clean. -/
theorem identity_key_completeness_amended_witness :
    (identityPresent (createArticleRow [("title", Val.str "t")] emptyBase) ∧
      identityNonNull (createArticleRow [("title", Val.str "t")] emptyBase)) ∧
    (∀ r ∈ (signalRowsForRow [("sirets", Val.list [Val.str "12345678901234",
        Val.str "1"])]).toOption.getD [], identityPresent r ∧ identityNonNull r) ∧
    (∀ r ∈ (basicInfoRows [[("socialName", Val.str "A"), ("activity", Val.str "x")]]).toOption.getD [],
      identityPresent r ∧ identityNonNull r) ∧
    (∀ r ∈ (kpiRowsForRecord (fun _ => Option.none) ["kpi"]
        [("kpi", Val.dict [("2022", Val.dict [("a", Val.int 1)])])]).toOption.getD [],
      identityPresent r) ∧
    (∀ r ∈ (extractKpiRows [("socialName", Val.str "A")]
        (Val.dict [("2022", Val.dict [("a", Val.int 1)])])).toOption.getD [],
      identityPresent r ∧ identityNonNull r) := by
  refine ⟨?_, ?_, ?_, ?_, ?_⟩
  · exact identity_key_completeness_amended.1 [("title", Val.str "t")]
      [createArticleRow [("title", Val.str "t")] emptyBase] rfl
      (fun cs hcs => Option.noConfusion hcs)
      (createArticleRow [("title", Val.str "t")] emptyBase) (List.Mem.head _)
  · exact identity_key_completeness_amended.2.1
      [("sirets", Val.list [Val.str "12345678901234", Val.str "1"])] _ rfl
  · exact identity_key_completeness_amended.2.2.1
      [[("socialName", Val.str "A"), ("activity", Val.str "x")]] _ (Or.inl rfl)
  · exact identity_key_completeness_amended.2.2.2.1 (fun _ => Option.none) ["kpi"]
      [("kpi", Val.dict [("2022", Val.dict [("a", Val.int 1)])])] _ rfl
  · exact identity_key_completeness_amended.2.2.2.2 [("socialName", Val.str "A")]
      [("2022", Val.dict [("a", Val.int 1)])] _ rfl
      (by
        intro p hp yk hyk q hq
        rcases List.mem_singleton.mp hp with rfl
        simp only at hyk
        injection hyk with hyk
        subst hyk
        rcases List.mem_singleton.mp hq with rfl
        exact ⟨by decide, by decide, by decide⟩)

end OSE
